import Mathlib

/-!
Event readers and writers of `lhcb_opendata`.

A shallow embedding of `lhcb_opendata.cc`: the `Event` record, the relational
(SQLite) writer and reader, the tree (ROOT) reader, the row-binary (HDF5)
writer, the format dispatch and the driver loop of `main`.

Conventions of the embedding.

* A `double` is carried as its bit pattern.  The code modelled here only copies
  doubles; the one place where it adds them (`dummy` in `AnalyzeRootOptimized`)
  takes the arithmetic as a parameter.  The relational store is where a double
  can change: SQLite binds a NaN as NULL, applies the affinity of the column to
  the value it stores, and converts between REAL and INTEGER when a column is
  read; these conversions are defined on the bit pattern.
* A C `int` is an `Int`; the `unsigned` counters wrap modulo `2 ^ 32`, the
  `hsize_t` offset modulo `2 ^ 64`.
* A method that ends in a failed `assert` or in `abort()` returns its state at
  that point together with the flag `aborted`.
* The storage engines are outside the program.  Each is given the smallest
  state that the calls made by the code act on: a table of rows and bound
  statement parameters (SQLite), branch addresses and entries (ROOT), a
  fixed-extent dataset (HDF5).
-/

namespace LhcbOpendata

/-! ## Event record -/

/-- A `double`, identified by its bit pattern. -/
structure Double where
  bits : Nat
deriving DecidableEq, Repr

/-- The double `0.0`. -/
def Double.zero : Double := ⟨0⟩

/-- The exponent field of the bit pattern (bits 52..62). -/
def Double.exponent (d : Double) : Nat := d.bits / 2 ^ 52 % 2 ^ 11

/-- The fraction field of the bit pattern (bits 0..51). -/
def Double.mantissa (d : Double) : Nat := d.bits % 2 ^ 52

/-- Whether the sign bit (bit 63) is set. -/
def Double.negative (d : Double) : Bool := decide (d.bits / 2 ^ 63 % 2 = 1)

/-- Whether the pattern is a NaN: all exponent bits set, fraction non-zero. -/
def Double.isNaN (d : Double) : Bool := decide (d.exponent = 2047 ∧ d.mantissa ≠ 0)

/-- Whether the pattern is a zero, `+0.0` or `-0.0`. -/
def Double.isZero (d : Double) : Bool := decide (d.exponent = 0 ∧ d.mantissa = 0)

/-- Whether the pattern is a zero other than `+0.0`; for a 64-bit pattern this
is `-0.0`. -/
def Double.isNegZero (d : Double) : Bool := d.isZero && decide (d.bits ≠ 0)

/-- The C comparison `a == b` of two doubles: false when either is a NaN, true
for equal patterns and for two zeros. -/
def Double.eq (a b : Double) : Bool :=
  !a.isNaN && !b.isNaN && (decide (a.bits = b.bits) || (a.isZero && b.isZero))

/-- The C `int` with the low 32 bits of `n` (the conversion of a 64-bit integer
to `int`). -/
def wrapInt32 (n : Int) : Int := (n + 2 ^ 31) % 2 ^ 32 - 2 ^ 31

/-- Whether `n` is a value of the C type `int`. -/
def isInt32 (n : Int) : Prop := -2 ^ 31 ≤ n ∧ n < 2 ^ 31

instance (n : Int) : Decidable (isInt32 n) := inferInstanceAs (Decidable (_ ∧ _))

/-- The conversion of a double that is not a NaN to a 64-bit integer, as SQLite
does it: truncation toward zero, with values at or beyond the ends of the
range taken to the smallest and the largest 64-bit integer. -/
def Double.toInt64 (d : Double) : Int :=
  let e := d.exponent
  let sig := 2 ^ 52 + d.mantissa
  let mag : Nat :=
    if e = 0 then 0
    else if e = 2047 then 2 ^ 63
    else if 1075 ≤ e then sig * 2 ^ (e - 1075)
    else sig / 2 ^ (1075 - e)
  let t : Int := if d.negative then -(mag : Int) else (mag : Int)
  if t ≤ -2 ^ 63 then -2 ^ 63 else if 2 ^ 63 ≤ t then 2 ^ 63 - 1 else t

/-- The position of the highest set bit of `n`, for `n` below `2 ^ fuel`. -/
def highBit : Nat → Nat → Nat
  | 0, _ => 0
  | fuel + 1, n => if 2 ≤ n then highBit fuel (n / 2) + 1 else 0

/-- The conversion `(double)n` of a 64-bit integer, rounding to nearest, ties to
even. -/
def Double.ofInt64 (n : Int) : Double :=
  if n = 0 then ⟨0⟩ else
  let a := n.natAbs
  let e := highBit 64 a
  let s := if n < 0 then 2 ^ 63 else 0
  if e ≤ 52 then ⟨s + (e + 1023) * 2 ^ 52 + (a * 2 ^ (52 - e) - 2 ^ 52)⟩
  else
    let sh := e - 52
    let q := a / 2 ^ sh
    let r := a % 2 ^ sh
    let half := 2 ^ (sh - 1)
    let q := if half < r ∨ (r = half ∧ q % 2 = 1) then q + 1 else q
    ⟨s + (e + 1023) * 2 ^ 52 + (q - 2 ^ 52)⟩

/-- Modelled from the spec: `struct KaonCandidate` of `lhcb_opendata.h`, with the
fields the code accesses (`h_is_muon` is bound to an `int` branch and an `int`
column, so it is an `int`). -/
structure KaonCandidate where
  h_px : Double
  h_py : Double
  h_pz : Double
  h_prob_k : Double
  h_prob_pi : Double
  h_charge : Int
  h_is_muon : Int
  h_ip_chi2 : Double
deriving DecidableEq, Repr

/-- Modelled from the spec: `struct Event` of `lhcb_opendata.h`: two scalars and
exactly three candidates, `kaon_candidates[0..2]`. -/
structure Event where
  b_flight_distance : Double
  b_vertex_chi2 : Double
  kaon_candidates : Fin 3 → KaonCandidate

/-- The `double` members of a candidate. -/
inductive DField where
  | h_px | h_py | h_pz | h_prob_k | h_prob_pi | h_ip_chi2
deriving DecidableEq, Repr

/-- The `int` members of a candidate. -/
inductive IField where
  | h_charge | h_is_muon
deriving DecidableEq, Repr

/-- Address of a `double` member of an `Event`, as in `&event->b_vertex_chi2` or
`&event->kaon_candidates[i].h_px`. -/
inductive DAddr where
  | b_flight_distance
  | b_vertex_chi2
  | cand (i : Fin 3) (f : DField)
deriving DecidableEq, Repr

/-- Address of an `int` member of an `Event`: `&event->kaon_candidates[i].f`. -/
structure IAddr where
  i : Fin 3
  f : IField
deriving DecidableEq, Repr

/-- Read a `double` member of a candidate. -/
def KaonCandidate.getD (k : KaonCandidate) : DField → Double
  | .h_px => k.h_px
  | .h_py => k.h_py
  | .h_pz => k.h_pz
  | .h_prob_k => k.h_prob_k
  | .h_prob_pi => k.h_prob_pi
  | .h_ip_chi2 => k.h_ip_chi2

/-- Assign a `double` member of a candidate. -/
def KaonCandidate.setD (k : KaonCandidate) : DField → Double → KaonCandidate
  | .h_px, v => { k with h_px := v }
  | .h_py, v => { k with h_py := v }
  | .h_pz, v => { k with h_pz := v }
  | .h_prob_k, v => { k with h_prob_k := v }
  | .h_prob_pi, v => { k with h_prob_pi := v }
  | .h_ip_chi2, v => { k with h_ip_chi2 := v }

/-- Read an `int` member of a candidate. -/
def KaonCandidate.getI (k : KaonCandidate) : IField → Int
  | .h_charge => k.h_charge
  | .h_is_muon => k.h_is_muon

/-- Assign an `int` member of a candidate. -/
def KaonCandidate.setI (k : KaonCandidate) : IField → Int → KaonCandidate
  | .h_charge, v => { k with h_charge := v }
  | .h_is_muon, v => { k with h_is_muon := v }

/-- The assignment `event->kaon_candidates[i].f = v` for a `double` member. -/
def Event.setD (e : Event) (i : Fin 3) (f : DField) (v : Double) : Event :=
  { e with kaon_candidates := fun j =>
      if j = i then (e.kaon_candidates j).setD f v else e.kaon_candidates j }

/-- The assignment `event->kaon_candidates[i].f = v` for an `int` member. -/
def Event.setI (e : Event) (i : Fin 3) (f : IField) (v : Int) : Event :=
  { e with kaon_candidates := fun j =>
      if j = i then (e.kaon_candidates j).setI f v else e.kaon_candidates j }

/-- A store of a `double` through an address into the event. -/
def Event.storeD (e : Event) : DAddr → Double → Event
  | .b_flight_distance, v => { e with b_flight_distance := v }
  | .b_vertex_chi2, v => { e with b_vertex_chi2 := v }
  | .cand i f, v => e.setD i f v

/-- A store of an `int` through an address into the event. -/
def Event.storeI (e : Event) (a : IAddr) (v : Int) : Event :=
  e.setI a.i a.f v

/-- Result of a method that may end in a failed `assert` or in `abort()`:
`state` is the state reached, `aborted` tells whether the process was
terminated there. -/
structure Outcome (σ : Type) where
  aborted : Bool
  state : σ

/-! ## SQLite engine -/

/-- The columns of table `events`, named as in the `CREATE TABLE` statement of
`EventWriterSqlite::Open`. -/
inductive Column where
  | B_FlightDistance | B_VertecChi2
  | H1_PX | H1_PY | H1_PZ | H1_ProbK | H1_ProbPi | H1_Charge | H1_IP2Chi2 | H1_isMuon
  | H2_PX | H2_PY | H2_PZ | H2_ProbK | H2_ProbPi | H2_Charge | H2_IP2Chi2 | H2_isMuon
  | H3_PX | H3_PY | H3_PZ | H3_ProbK | H3_ProbPi | H3_Charge | H3_IP2Chi2 | H3_isMuon
deriving DecidableEq, Repr

open Column in
/-- Column order of `CREATE TABLE events (...)`. -/
def tableColumns : List Column :=
  [B_FlightDistance, B_VertecChi2,
   H1_PX, H1_PY, H1_PZ, H1_ProbK, H1_ProbPi, H1_Charge, H1_IP2Chi2, H1_isMuon,
   H2_PX, H2_PY, H2_PZ, H2_ProbK, H2_ProbPi, H2_Charge, H2_IP2Chi2, H2_isMuon,
   H3_PX, H3_PY, H3_PZ, H3_ProbK, H3_ProbPi, H3_Charge, H3_IP2Chi2, H3_isMuon]

open Column in
/-- The named parameters of `INSERT INTO events VALUES (...)` in the order they
are written; SQLite numbers them 1, 2, ... in this order, and the i-th value
goes to the i-th column of the table. -/
def insertParameters : List Column :=
  [B_FlightDistance, B_VertecChi2,
   H1_PX, H1_PY, H1_PZ, H1_ProbK, H1_ProbPi, H1_Charge, H1_IP2Chi2, H1_isMuon,
   H2_PX, H2_PY, H2_PZ, H2_ProbK, H2_ProbPi, H2_Charge, H2_IP2Chi2, H2_isMuon,
   H3_PX, H3_PY, H3_PZ, H3_ProbK, H3_ProbPi, H3_Charge, H3_IP2Chi2, H3_isMuon]

open Column in
/-- The result columns of the `SELECT` statement of `EventReaderSqlite::Open`,
numbered from 0. -/
def selectColumns : List Column :=
  [H1_PX, H1_PY, H1_PZ, H1_ProbK, H1_ProbPi, H1_Charge, H1_isMuon,
   H2_PX, H2_PY, H2_PZ, H2_ProbK, H2_ProbPi, H2_Charge, H2_isMuon,
   H3_PX, H3_PY, H3_PZ, H3_ProbK, H3_ProbPi, H3_Charge, H3_isMuon]

/-- A value held by a statement parameter or a table cell. -/
inductive SqlValue where
  | null
  | integer (n : Int)
  | real (d : Double)
deriving DecidableEq, Repr

/-- A row of table `events`: one cell per column, in table order. -/
abbrev Row := List SqlValue

/-- Return code `SQLITE_OK`. -/
def SQLITE_OK : Nat := 0
/-- Return code `SQLITE_MISUSE`. -/
def SQLITE_MISUSE : Nat := 21
/-- Return code `SQLITE_RANGE`. -/
def SQLITE_RANGE : Nat := 25
/-- Return code `SQLITE_ROW`. -/
def SQLITE_ROW : Nat := 100
/-- Return code `SQLITE_DONE`. -/
def SQLITE_DONE : Nat := 101

/-- A prepared statement handle with its parameters: `none` is a handle that
was never prepared, `some ps` holds the values bound to parameters
`1 .. ps.length` (`null` where nothing was bound). -/
abbrev InsertStmt := Option (List SqlValue)

/-- The engine call `sqlite3_bind_*(stmt, idx, v)`: the return code and the
statement afterwards. -/
def sqlite3_bind (stmt : InsertStmt) (idx : Nat) (v : SqlValue) : Nat × InsertStmt :=
  match stmt with
  | none => (SQLITE_MISUSE, none)
  | some ps =>
    if 1 ≤ idx ∧ idx ≤ ps.length then (SQLITE_OK, some (ps.set (idx - 1) v))
    else (SQLITE_RANGE, some ps)

/-- The value that `sqlite3_bind_double` gives a parameter: a NaN is bound as
`NULL`. -/
def SqlValue.ofDouble (v : Double) : SqlValue :=
  if v.isNaN then .null else .real v

/-- The engine call `sqlite3_bind_double`. -/
def sqlite3_bind_double (stmt : InsertStmt) (idx : Nat) (v : Double) : Nat × InsertStmt :=
  sqlite3_bind stmt idx (SqlValue.ofDouble v)

/-- The engine call `sqlite3_bind_int`. -/
def sqlite3_bind_int (stmt : InsertStmt) (idx : Nat) (v : Int) : Nat × InsertStmt :=
  sqlite3_bind stmt idx (.integer v)

/-- The value `sqlite3_column_int` returns for a cell: the low 32 bits, as a C
`int`, of the INTEGER, or of the REAL converted to a 64-bit integer.  `NULL`
reads as 0, and so does a REAL that is a NaN (SQLite reads it as `NULL`).
Cells of the storage classes TEXT and BLOB are not part of the embedding. -/
def SqlValue.toInt : SqlValue → Int
  | .integer n => wrapInt32 n
  | .null => 0
  | .real d => if d.isNaN then 0 else wrapInt32 d.toInt64

/-- The value `sqlite3_column_double` returns for a cell: the REAL, or the
INTEGER converted to a double.  `NULL` reads as 0.0, and so does a REAL that
is a NaN. -/
def SqlValue.toDouble : SqlValue → Double
  | .real d => if d.isNaN then Double.zero else d
  | .null => Double.zero
  | .integer n => Double.ofInt64 n

/-- The declared type of a column of table `events`. -/
inductive Affinity where
  | REAL | INTEGER
deriving DecidableEq, Repr

/-- The declared types of `CREATE TABLE events (...)`: the Charge and isMuon
columns are INTEGER, the others REAL. -/
def Column.affinity : Column → Affinity
  | .H1_Charge | .H1_isMuon | .H2_Charge | .H2_isMuon | .H3_Charge | .H3_isMuon => .INTEGER
  | _ => .REAL

/-- What SQLite makes of a value stored into a column with a numeric type: a REAL
that is a whole number strictly inside the 64-bit range becomes that INTEGER. -/
def integerAffinity : SqlValue → SqlValue
  | .real d =>
    if d.isNaN then .null
    else if Double.eq (Double.ofInt64 d.toInt64) d ∧ -2 ^ 63 < d.toInt64 ∧ d.toInt64 < 2 ^ 63 - 1
    then .integer d.toInt64
    else .real d
  | v => v

/-- The cell that a column of the given type holds, as a reader finds it, after
the value `v` is inserted.  A REAL column keeps whole numbers as integers and
hands them back as REAL, so `-0.0` comes back as `+0.0`. -/
def applyAffinity (a : Affinity) (v : SqlValue) : SqlValue :=
  match a with
  | .INTEGER => integerAffinity v
  | .REAL =>
    match integerAffinity v with
    | .integer n => .real (Double.ofInt64 n)
    | w => w

/-- The table row made of the values of an `INSERT INTO events VALUES (...)`, in
table order. -/
def insertedRow (ps : List SqlValue) : Row :=
  List.zipWith applyAffinity (tableColumns.map Column.affinity) ps

/-- The cell of column `c` in a table row. -/
def Row.cell (r : Row) (c : Column) : SqlValue :=
  r.getD (tableColumns.indexOf c) .null

/-- The result row the `SELECT` produces for a table row. -/
def selectRow (r : Row) : List SqlValue :=
  selectColumns.map r.cell

/-- The prepared `SELECT` statement: its result set, the rows not yet stepped
to, and the current result row (`none` when the statement is not on a row). -/
structure SelectStmt where
  result : List Row
  rest : List Row
  current : Option (List SqlValue)

/-- The engine call `sqlite3_step` on the `SELECT` statement.  After
`SQLITE_DONE` the next step starts the statement over. -/
def sqlite3_step_select (s : SelectStmt) : Nat × SelectStmt :=
  match s.rest with
  | r :: rest => (SQLITE_ROW, { s with rest := rest, current := some (selectRow r) })
  | [] => (SQLITE_DONE, { s with rest := s.result, current := none })

/-- The engine call `sqlite3_column_int(s, j)`; no current row or no such column
reads as `NULL`. -/
def sqlite3_column_int (s : SelectStmt) (j : Nat) : Int :=
  match s.current with
  | some cols => (cols.getD j .null).toInt
  | none => 0

/-- The engine call `sqlite3_column_double(s, j)`; no current row or no such
column reads as `NULL`. -/
def sqlite3_column_double (s : SelectStmt) (j : Nat) : Double :=
  match s.current with
  | some cols => (cols.getD j .null).toDouble
  | none => Double.zero

/-- The engine call `sqlite3_step` on the `INSERT` statement: the bound
parameters make a new row of the table as the statement's connection sees it.
Stepping needs a prepared statement, which has a connection. -/
def sqlite3_step_insert (conn : Option (List Row)) (stmt : InsertStmt) :
    Nat × Option (List Row) :=
  match conn, stmt with
  | some rows, some ps => (SQLITE_DONE, some (rows ++ [insertedRow ps]))
  | _, _ => (SQLITE_MISUSE, conn)

/-- The engine call `sqlite3_reset`: the statement is ready to be stepped again;
its bindings stay. -/
def sqlite3_reset (stmt : InsertStmt) : Nat × InsertStmt :=
  match stmt with
  | some ps => (SQLITE_OK, some ps)
  | none => (SQLITE_OK, none)

/-! ## Relational writer -/

/-- The object `EventWriterSqlite` and the engine state behind it.  `db_` tells
whether the pointer `db_` is non-null; `sql_insert_` is the prepared insert.
The other fields are not members of the class.  `conn` is the connection that
`Open` made, with the rows of `events` as it sees them (`none`: no connection
yet), and `transaction` tells whether it is inside the transaction begun by
`Open`; `sqlite3_close` cannot close a connection whose statement is not
finalized, so the connection outlives `Close`.  `file` is the database file at
the path given to `Open`: the committed rows of `events` (`none`: no file). -/
structure EventWriterSqlite where
  db_ : Bool
  conn : Option (List Row)
  transaction : Bool
  sql_insert_ : InsertStmt
  file : Option (List Row)

/-- Modelled from the spec: the constructor of `EventWriterSqlite` in
`lhcb_opendata.h`; `Open` asserts that `db_` is still `nullptr`.  Nothing is at
the target path yet. -/
def EventWriterSqlite.new : EventWriterSqlite :=
  { db_ := false, conn := none, transaction := false, sql_insert_ := none, file := none }

/-- Method `EventWriterSqlite::Open`: removes the file, creates the database with the
empty table `events`, begins a transaction and prepares the insert. -/
def EventWriterSqlite.Open (w : EventWriterSqlite) : Outcome EventWriterSqlite :=
  -- assert(db_ == nullptr)
  if w.db_ then ⟨true, w⟩ else
  -- unlink(path); sqlite3_open_v2(..., READWRITE | CREATE); CREATE TABLE events (...); BEGIN;
  -- (the line that printf writes here is not recorded)
  let w := { w with file := some [], db_ := true, conn := some [], transaction := true }
  -- sqlite3_prepare_v2(db_, "INSERT INTO events VALUES (...)", ...)
  let w := { w with sql_insert_ := some (List.replicate insertParameters.length .null) }
  ⟨false, w⟩

/-- Method `EventWriterSqlite::WriteEvent`. -/
def EventWriterSqlite.WriteEvent (w : EventWriterSqlite) (event : Event) :
    Outcome EventWriterSqlite :=
  let b1 := sqlite3_bind_double w.sql_insert_ 1 event.b_flight_distance
  let b2 := sqlite3_bind_double b1.2 2 event.b_vertex_chi2
  let b3 := sqlite3_bind_double b2.2 3 (event.kaon_candidates 0).h_px
  let b4 := sqlite3_bind_double b3.2 4 (event.kaon_candidates 0).h_py
  let b5 := sqlite3_bind_double b4.2 5 (event.kaon_candidates 0).h_pz
  let b6 := sqlite3_bind_double b5.2 6 (event.kaon_candidates 0).h_prob_k
  let b7 := sqlite3_bind_double b6.2 7 (event.kaon_candidates 0).h_prob_pi
  let b8 := sqlite3_bind_int b7.2 8 (event.kaon_candidates 0).h_charge
  let b9 := sqlite3_bind_double b8.2 9 (event.kaon_candidates 0).h_ip_chi2
  let b10 := sqlite3_bind_int b9.2 10 (event.kaon_candidates 0).h_is_muon
  let b11 := sqlite3_bind_double b10.2 11 (event.kaon_candidates 1).h_px
  let b12 := sqlite3_bind_double b11.2 12 (event.kaon_candidates 1).h_py
  let b13 := sqlite3_bind_double b12.2 13 (event.kaon_candidates 1).h_pz
  let b14 := sqlite3_bind_double b13.2 14 (event.kaon_candidates 1).h_prob_k
  let b15 := sqlite3_bind_double b14.2 15 (event.kaon_candidates 1).h_prob_pi
  let b16 := sqlite3_bind_int b15.2 16 (event.kaon_candidates 1).h_charge
  let b17 := sqlite3_bind_double b16.2 17 (event.kaon_candidates 1).h_ip_chi2
  let b18 := sqlite3_bind_int b17.2 18 (event.kaon_candidates 1).h_is_muon
  let b19 := sqlite3_bind_double b18.2 19 (event.kaon_candidates 2).h_px
  let b20 := sqlite3_bind_double b19.2 20 (event.kaon_candidates 2).h_py
  let b21 := sqlite3_bind_double b20.2 21 (event.kaon_candidates 2).h_pz
  let b22 := sqlite3_bind_double b21.2 22 (event.kaon_candidates 2).h_prob_k
  let b23 := sqlite3_bind_double b22.2 23 (event.kaon_candidates 2).h_prob_pi
  let b24 := sqlite3_bind_int b23.2 24 (event.kaon_candidates 2).h_charge
  let b25 := sqlite3_bind_double b24.2 25 (event.kaon_candidates 2).h_ip_chi2
  let b26 := sqlite3_bind_int b25.2 26 (event.kaon_candidates 2).h_is_muon
  let retval := b1.1 ||| b2.1 ||| b3.1 ||| b4.1 ||| b5.1 ||| b6.1 ||| b7.1 ||| b8.1 |||
    b9.1 ||| b10.1 ||| b11.1 ||| b12.1 ||| b13.1 ||| b14.1 ||| b15.1 ||| b16.1 ||| b17.1 |||
    b18.1 ||| b19.1 ||| b20.1 ||| b21.1 ||| b22.1 ||| b23.1 ||| b24.1 ||| b25.1 ||| b26.1
  let w := { w with sql_insert_ := b26.2 }
  -- assert(retval == SQLITE_OK)
  if retval ≠ SQLITE_OK then ⟨true, w⟩ else
  let st := sqlite3_step_insert w.conn w.sql_insert_
  -- outside a transaction the new row is committed at once
  let w := { w with
    conn := st.2
    file := if st.1 = SQLITE_DONE ∧ w.transaction = false then st.2 else w.file }
  -- assert(retval == SQLITE_DONE)
  if st.1 ≠ SQLITE_DONE then ⟨true, w⟩ else
  let rs := sqlite3_reset w.sql_insert_
  let w := { w with sql_insert_ := rs.2 }
  -- assert(retval == SQLITE_OK)
  if rs.1 ≠ SQLITE_OK then ⟨true, w⟩ else
  ⟨false, w⟩

/-- Method `EventWriterSqlite::Close`: commits the transaction and sets `db_` to
`nullptr`.  The call of `sqlite3_close` in between fails, its result unchecked,
because the insert is not finalized: the connection stays. -/
def EventWriterSqlite.Close (w : EventWriterSqlite) : Outcome EventWriterSqlite :=
  -- sqlite3_exec(db_, "COMMIT;", ...) fails on a null pointer and outside a
  -- transaction: assert(retval == SQLITE_OK)
  if w.db_ = false ∨ w.transaction = false then ⟨true, w⟩ else
  ⟨false, { w with file := w.conn, transaction := false, db_ := false }⟩

/-! ## Relational reader -/

/-- The object `EventReaderSqlite`: the connection (`none` is `nullptr`) and the
prepared select. -/
structure EventReaderSqlite where
  db_ : Option (List Row)
  sql_select_ : Option SelectStmt

/-- Modelled from the spec: the constructor of `EventReaderSqlite` in
`lhcb_opendata.h`; `Open` asserts that `db_` is still `nullptr`. -/
def EventReaderSqlite.new : EventReaderSqlite :=
  { db_ := none, sql_select_ := none }

/-- Method `EventReaderSqlite::Open` on the database file `file` (the committed rows of
its table `events`; `none` when there is no such file, in which case the
read-only open fails). -/
def EventReaderSqlite.Open (r : EventReaderSqlite) (file : Option (List Row)) :
    Outcome EventReaderSqlite :=
  -- assert(db_ == nullptr)
  if r.db_.isSome then ⟨true, r⟩ else
  match file with
  -- assert(retval == SQLITE_OK) after sqlite3_open_v2(..., READONLY | NOMUTEX)
  | none => ⟨true, r⟩
  | some rows =>
    ⟨false, { db_ := some rows,
              sql_select_ := some { result := rows, rest := rows, current := none } }⟩

/-- What a call of `NextEvent` leaves behind: whether an assertion ended the
process, the value returned, the reader and the `Event` pointed to. -/
structure ReadResult (ρ : Type) where
  aborted : Bool
  ret : Bool
  reader : ρ
  event : Event

/-- Method `EventReaderSqlite::NextEvent`. -/
def EventReaderSqlite.NextEvent (r : EventReaderSqlite) (event : Event) :
    ReadResult EventReaderSqlite :=
  match r.sql_select_ with
  -- stepping a null statement is a misuse: the assert fails
  | none => ⟨true, false, r, event⟩
  | some stmt =>
    let st := sqlite3_step_select stmt
    let retval := st.1
    -- assert((retval == SQLITE_DONE) || (retval == SQLITE_ROW))
    if ¬ (retval = SQLITE_DONE ∨ retval = SQLITE_ROW) then ⟨true, false, r, event⟩ else
    let has_more_data := decide (retval = SQLITE_ROW)
    let s := st.2
    let r := { r with sql_select_ := some s }
    let event := event.setI 0 .h_is_muon (sqlite3_column_int s 6)
    if (event.kaon_candidates 0).h_is_muon ≠ 0 then ⟨false, has_more_data, r, event⟩ else
    let event := event.setI 1 .h_is_muon (sqlite3_column_int s 13)
    if (event.kaon_candidates 1).h_is_muon ≠ 0 then ⟨false, has_more_data, r, event⟩ else
    let event := event.setI 2 .h_is_muon (sqlite3_column_int s 20)
    if (event.kaon_candidates 2).h_is_muon ≠ 0 then ⟨false, has_more_data, r, event⟩ else
    let event := event.setD 0 .h_px (sqlite3_column_double s 0)
    let event := event.setD 0 .h_py (sqlite3_column_double s 1)
    let event := event.setD 0 .h_pz (sqlite3_column_double s 2)
    let event := event.setD 0 .h_prob_k (sqlite3_column_double s 3)
    let event := event.setD 0 .h_prob_pi (sqlite3_column_double s 4)
    let event := event.setI 0 .h_charge (sqlite3_column_int s 5)
    let event := event.setD 1 .h_px (sqlite3_column_double s 7)
    let event := event.setD 1 .h_py (sqlite3_column_double s 8)
    let event := event.setD 1 .h_pz (sqlite3_column_double s 9)
    let event := event.setD 1 .h_prob_k (sqlite3_column_double s 10)
    let event := event.setD 1 .h_prob_pi (sqlite3_column_double s 11)
    let event := event.setI 1 .h_charge (sqlite3_column_int s 12)
    let event := event.setD 2 .h_px (sqlite3_column_double s 14)
    let event := event.setD 2 .h_py (sqlite3_column_double s 15)
    let event := event.setD 2 .h_pz (sqlite3_column_double s 16)
    let event := event.setD 2 .h_prob_k (sqlite3_column_double s 17)
    let event := event.setD 2 .h_prob_pi (sqlite3_column_double s 18)
    let event := event.setI 2 .h_charge (sqlite3_column_int s 19)
    ⟨false, has_more_data, r, event⟩

/-! ## ROOT engine -/

/-- The `double` branches of the tree `DecayTree` that the code names. -/
inductive DBranch where
  | B_FlightDistance | B_VertexChi2
  | H1_PX | H1_PY | H1_PZ | H1_ProbK | H1_ProbPi | H1_IPChi2
  | H2_PX | H2_PY | H2_PZ | H2_ProbK | H2_ProbPi | H2_IPChi2
  | H3_PX | H3_PY | H3_PZ | H3_ProbK | H3_ProbPi | H3_IPChi2
deriving DecidableEq, Repr

/-- The `int` branches of the tree `DecayTree` that the code names. -/
inductive IBranch where
  | H1_Charge | H1_isMuon | H2_Charge | H2_isMuon | H3_Charge | H3_isMuon
deriving DecidableEq, Repr

/-- One record (entry) of the tree: a value for every branch. -/
structure TreeEntry where
  dval : DBranch → Double
  ival : IBranch → Int

open DBranch in
/-- Modelled from the spec: the order in which an entry's `double` branches are
read, which is the column order of the tree schema (the two scalars, then
H1, H2, H3). -/
def treeDBranches : List DBranch :=
  [B_FlightDistance, B_VertexChi2,
   H1_PX, H1_PY, H1_PZ, H1_ProbK, H1_ProbPi, H1_IPChi2,
   H2_PX, H2_PY, H2_PZ, H2_ProbK, H2_ProbPi, H2_IPChi2,
   H3_PX, H3_PY, H3_PZ, H3_ProbK, H3_ProbPi, H3_IPChi2]

open IBranch in
/-- Modelled from the spec: the order in which an entry's `int` branches are
read (schema order). -/
def treeIBranches : List IBranch :=
  [H1_Charge, H1_isMuon, H2_Charge, H2_isMuon, H3_Charge, H3_isMuon]

/-- A `TChain`: the entries of the chained files in order, and the address set
for each branch (`none`: no address set). -/
structure TChain where
  entries : List TreeEntry
  daddr : DBranch → Option DAddr
  iaddr : IBranch → Option IAddr

/-- The chain made by `new TChain("DecayTree")` followed by `Add` of the files holding `entries`. -/
def TChain.new (entries : List TreeEntry) : TChain :=
  { entries := entries, daddr := fun _ => none, iaddr := fun _ => none }

/-- The call `SetBranchAddress(name, &double_member)`. -/
def TChain.SetBranchAddressD (c : TChain) (b : DBranch) (a : DAddr) : TChain :=
  { c with daddr := fun b' => if b' = b then some a else c.daddr b' }

/-- The call `SetBranchAddress(name, &int_member)`. -/
def TChain.SetBranchAddressI (c : TChain) (b : IBranch) (a : IAddr) : TChain :=
  { c with iaddr := fun b' => if b' = b then some a else c.iaddr b' }

/-- Reading one entry: every branch that has an address stores its value there,
branch after branch. -/
def TChain.readEntry (c : TChain) (t : TreeEntry) (event : Event) : Event :=
  let event := treeDBranches.foldl
    (fun e b => match c.daddr b with
      | some a => e.storeD a (t.dval b)
      | none => e) event
  treeIBranches.foldl
    (fun e b => match c.iaddr b with
      | some a => e.storeI a (t.ival b)
      | none => e) event

/-- The call `GetEntry(entry)`; an entry number outside the chain reads nothing. -/
def TChain.GetEntry (c : TChain) (entry : Int) (event : Event) : Event :=
  if entry < 0 then event else
  match c.entries.get? entry.toNat with
  | some t => c.readEntry t event
  | none => event

/-- The call `GetEntries()`. -/
def TChain.GetEntries (c : TChain) : Int := c.entries.length

/-! ## Tree reader -/

/-- The object `EventReaderRoot`.  The width of the two counters is declared in
the header; they are taken as integers. -/
structure EventReaderRoot where
  root_chain_ : Option TChain
  num_events_ : Int
  pos_events_ : Int

/-- Modelled from the spec: the constructor of `EventReaderRoot` in
`lhcb_opendata.h`, which leaves the reader with the "not yet initialized"
sentinel, a negative `num_events_`. -/
def EventReaderRoot.new : EventReaderRoot :=
  { root_chain_ := none, num_events_ := -1, pos_events_ := -1 }

/-- Method `EventReaderRoot::Open`; `entries` are the records of the files named by the
colon-joined path, in order. -/
def EventReaderRoot.Open (r : EventReaderRoot) (entries : List TreeEntry) : EventReaderRoot :=
  { r with root_chain_ := some (TChain.new entries) }

/-- Method `EventReaderRoot::AttachBranches2Event`, acting on the chain. -/
def AttachBranches2Event (c : TChain) : TChain :=
  let c := c.SetBranchAddressD .H1_PX (.cand 0 .h_px)
  let c := c.SetBranchAddressD .H1_PY (.cand 0 .h_py)
  let c := c.SetBranchAddressD .H1_PZ (.cand 0 .h_pz)
  let c := c.SetBranchAddressD .H1_ProbK (.cand 0 .h_prob_k)
  let c := c.SetBranchAddressD .H1_ProbPi (.cand 0 .h_prob_pi)
  let c := c.SetBranchAddressI .H1_Charge ⟨0, .h_charge⟩
  let c := c.SetBranchAddressI .H1_isMuon ⟨0, .h_is_muon⟩
  let c := c.SetBranchAddressD .H2_PX (.cand 1 .h_px)
  let c := c.SetBranchAddressD .H2_PY (.cand 1 .h_py)
  let c := c.SetBranchAddressD .H2_PZ (.cand 1 .h_pz)
  let c := c.SetBranchAddressD .H2_ProbK (.cand 1 .h_prob_k)
  let c := c.SetBranchAddressD .H2_ProbPi (.cand 1 .h_prob_pi)
  let c := c.SetBranchAddressI .H2_Charge ⟨1, .h_charge⟩
  let c := c.SetBranchAddressI .H2_isMuon ⟨1, .h_is_muon⟩
  let c := c.SetBranchAddressD .H3_PX (.cand 2 .h_px)
  let c := c.SetBranchAddressD .H3_PY (.cand 2 .h_py)
  let c := c.SetBranchAddressD .H3_PZ (.cand 2 .h_pz)
  let c := c.SetBranchAddressD .H3_ProbK (.cand 1 .h_prob_k)
  let c := c.SetBranchAddressD .H3_ProbPi (.cand 2 .h_prob_pi)
  let c := c.SetBranchAddressI .H3_Charge ⟨2, .h_charge⟩
  let c := c.SetBranchAddressI .H3_isMuon ⟨2, .h_is_muon⟩
  c

/-- Method `EventReaderRoot::AttachUnusedBranches2Event`, acting on the chain. -/
def AttachUnusedBranches2Event (c : TChain) : TChain :=
  let c := c.SetBranchAddressD .B_FlightDistance .b_flight_distance
  let c := c.SetBranchAddressD .B_VertexChi2 .b_vertex_chi2
  let c := c.SetBranchAddressD .H1_IPChi2 (.cand 0 .h_ip_chi2)
  let c := c.SetBranchAddressD .H2_IPChi2 (.cand 1 .h_ip_chi2)
  let c := c.SetBranchAddressD .H3_IPChi2 (.cand 2 .h_ip_chi2)
  c

/-- Method `EventReaderRoot::PrepareForConversion`. -/
def EventReaderRoot.PrepareForConversion (r : EventReaderRoot) : EventReaderRoot :=
  { r with root_chain_ := r.root_chain_.map AttachUnusedBranches2Event }

/-- Method `EventReaderRoot::NextEvent`.  The addresses set on the first call point into
the `Event` passed then; the embedding follows one `Event` object through the
calls, as `main` does.  Without a chain (`Open` was not called) the call
dereferences a null pointer. -/
def EventReaderRoot.NextEvent (r : EventReaderRoot) (event : Event) :
    ReadResult EventReaderRoot :=
  match r.root_chain_ with
  | none => ⟨true, false, r, event⟩
  | some chain =>
    let first := decide (r.num_events_ < 0)
    let chain := if first then AttachBranches2Event chain else chain
    let num_events_ := if first then chain.GetEntries else r.num_events_
    let pos_events_ := if first then 0 else r.pos_events_
    if pos_events_ ≥ num_events_ then
      ⟨false, false,
        { root_chain_ := some chain, num_events_ := num_events_, pos_events_ := pos_events_ },
        event⟩
    else
      let event := chain.GetEntry pos_events_ event
      ⟨false, true,
        { root_chain_ := some chain, num_events_ := num_events_,
          pos_events_ := pos_events_ + 1 },
        event⟩

/-- The reader and the event after `k` successive calls of `NextEvent`. -/
def EventReaderRoot.afterCalls (r : EventReaderRoot) (event : Event) :
    Nat → EventReaderRoot × Event
  | 0 => (r, event)
  | k + 1 =>
    let s := EventReaderRoot.afterCalls r event k
    let res := s.1.NextEvent s.2
    (res.reader, res.event)

/-- The call number `k + 1` of `NextEvent` in a sequence of calls. -/
def EventReaderRoot.call (r : EventReaderRoot) (event : Event) (k : Nat) :
    ReadResult EventReaderRoot :=
  (EventReaderRoot.afterCalls r event k).1.NextEvent (EventReaderRoot.afterCalls r event k).2

/-! ## Row-binary writer -/

/-- Modelled from the spec: `struct DataSet` of `lhcb_opendata.h`, the compound
record of the row-binary format, with the 26 members that `Open` registers. -/
structure DataSet where
  b_flight_distance : Double
  b_vertex_chi2 : Double
  h1_px : Double
  h1_py : Double
  h1_pz : Double
  h1_prob_k : Double
  h1_prob_pi : Double
  h1_charge : Int
  h1_is_muon : Int
  h1_ip_chi2 : Double
  h2_px : Double
  h2_py : Double
  h2_pz : Double
  h2_prob_k : Double
  h2_prob_pi : Double
  h2_charge : Int
  h2_is_muon : Int
  h2_ip_chi2 : Double
  h3_px : Double
  h3_py : Double
  h3_pz : Double
  h3_prob_k : Double
  h3_prob_pi : Double
  h3_charge : Int
  h3_is_muon : Int
  h3_ip_chi2 : Double
deriving DecidableEq, Repr

/-- The object `EventWriterH5Row` with the HDF5 state behind its handles:
whether the handles are open, the extent `dim` of the file dataspace
`space_id_`, the start of the one-row hyperslab selected in it, the rows of
dataset `/DecayTree` written so far (`none`: never written), and the write
offset `nevent_`. -/
structure EventWriterH5Row where
  opened : Bool
  dim : Nat
  selection : Option Nat
  rows : Nat → Option DataSet
  nevent_ : Nat

/-- Modelled from the spec: the constructor of `EventWriterH5Row` in
`lhcb_opendata.h`: no handle is open and the write offset is 0. -/
def EventWriterH5Row.new : EventWriterH5Row :=
  { opened := false, dim := 0, selection := none, rows := fun _ => none, nevent_ := 0 }

/-- Method `EventWriterH5Row::Open`: creates the file, the compound type, the
dataspace of 8556118 rows and the dataset. -/
def EventWriterH5Row.Open (w : EventWriterH5Row) : Outcome EventWriterH5Row :=
  let dim := 8556118
  ⟨false, { w with opened := true, dim := dim, selection := none, rows := fun _ => none }⟩

/-- The engine call `H5Sselect_hyperslab(space_id_, H5S_SELECT_SET, &start, NULL,
&count, NULL)` with `count = 1`: it sets the selection and does not compare it
with the extent.  It fails on a dataspace that is not open. -/
def H5Sselect_hyperslab (w : EventWriterH5Row) (start : Nat) : Int × EventWriterH5Row :=
  if w.opened then (0, { w with selection := some start }) else (-1, w)

/-- The engine call `H5Dwrite(set_id_, type_id_, mem_space_id_, space_id_, ...,
&dataset)`: writes the record to the selected row when the selection lies
within the extent of the dataset, and fails without writing otherwise. -/
def H5Dwrite (w : EventWriterH5Row) (dataset : DataSet) : Int × EventWriterH5Row :=
  match w.opened, w.selection with
  | true, some start =>
    if start < w.dim then
      (0, { w with rows := fun k => if k = start then some dataset else w.rows k })
    else (-1, w)
  | _, _ => (-1, w)

/-- Method `EventWriterH5Row::WriteEvent`.  The local `DataSet dataset` is not
initialised: `uninit` is what it holds before the two assignments. -/
def EventWriterH5Row.WriteEvent (w : EventWriterH5Row) (event : Event) (uninit : DataSet) :
    Outcome EventWriterH5Row :=
  let dataset := uninit
  let dataset := { dataset with b_flight_distance := event.b_flight_distance }
  let dataset := { dataset with b_vertex_chi2 := event.b_vertex_chi2 }
  let sel := H5Sselect_hyperslab w w.nevent_
  -- assert(retval >= 0)
  if sel.1 < 0 then ⟨true, sel.2⟩ else
  let wr := H5Dwrite sel.2 dataset
  -- assert(retval >= 0)
  if wr.1 < 0 then ⟨true, wr.2⟩ else
  ⟨false, { wr.2 with nevent_ := (wr.2.nevent_ + 1) % 2 ^ 64 }⟩

/-- Method `EventWriterH5Row::Close`. -/
def EventWriterH5Row.Close (w : EventWriterH5Row) : Outcome EventWriterH5Row :=
  ⟨false, { w with opened := false, selection := none }⟩

/-- Writing a sequence of events, each with what its uninitialised local holds;
the sequence stops at the first call that aborts. -/
def EventWriterH5Row.writeAll (w : EventWriterH5Row) :
    List (Event × DataSet) → Outcome EventWriterH5Row
  | [] => ⟨false, w⟩
  | (e, u) :: rest =>
    let o := w.WriteEvent e u
    if o.aborted then o else EventWriterH5Row.writeAll o.state rest

/-! ## Columnar-binary writer -/

/-- The object `EventWriterH5Column`: whether its file handle is open. -/
structure EventWriterH5Column where
  opened : Bool

/-- Modelled from the spec: the constructor of `EventWriterH5Column` in
`lhcb_opendata.h`: no file is open. -/
def EventWriterH5Column.new : EventWriterH5Column := { opened := false }

/-- Method `EventWriterH5Column::Open`: creates the file, with no dataset. -/
def EventWriterH5Column.Open (_w : EventWriterH5Column) : Outcome EventWriterH5Column :=
  ⟨false, { opened := true }⟩

/-- Method `EventWriterH5Column::WriteEvent`: `abort()`. -/
def EventWriterH5Column.WriteEvent (w : EventWriterH5Column) (_event : Event) :
    Outcome EventWriterH5Column :=
  ⟨true, w⟩

/-- Method `EventWriterH5Column::Close`. -/
def EventWriterH5Column.Close (_w : EventWriterH5Column) : Outcome EventWriterH5Column :=
  ⟨false, { opened := false }⟩

/-! ## Format dispatch -/

/-- Modelled from the spec: `enum class FileFormats`, declared outside this file;
its values are the four formats the code names, one per extension token. -/
inductive FileFormats where
  | kRoot | kSqlite | kH5Row | kH5Column
deriving DecidableEq, Repr

/-- An `EventWriter`: one of the three concrete writers. -/
inductive EventWriter where
  | H5Row (w : EventWriterH5Row)
  | H5Column (w : EventWriterH5Column)
  | Sqlite (w : EventWriterSqlite)

/-- An `EventReader`: one of the two concrete readers. -/
inductive EventReader where
  | Root (r : EventReaderRoot)
  | Sqlite (r : EventReaderSqlite)

/-- Method `EventWriter::Create`: the newly constructed writer, or `abort()` with no
object. -/
def EventWriter.Create (format : FileFormats) : Outcome (Option EventWriter) :=
  match format with
  | .kH5Row => ⟨false, some (.H5Row EventWriterH5Row.new)⟩
  | .kH5Column => ⟨false, some (.H5Column EventWriterH5Column.new)⟩
  | .kSqlite => ⟨false, some (.Sqlite EventWriterSqlite.new)⟩
  | _ => ⟨true, none⟩

/-- Method `EventReader::Create`: the newly constructed reader, or `abort()` with no
object. -/
def EventReader.Create (format : FileFormats) : Outcome (Option EventReader) :=
  match format with
  | .kRoot => ⟨false, some (.Root EventReaderRoot.new)⟩
  | .kSqlite => ⟨false, some (.Sqlite EventReaderSqlite.new)⟩
  | _ => ⟨true, none⟩

/-- The virtual call `event_writer->Open(path)`. -/
def EventWriter.Open : EventWriter → Outcome EventWriter
  | .H5Row w => ⟨w.Open.aborted, .H5Row w.Open.state⟩
  | .H5Column w => ⟨w.Open.aborted, .H5Column w.Open.state⟩
  | .Sqlite w => ⟨w.Open.aborted, .Sqlite w.Open.state⟩

/-- The virtual call `event_writer->WriteEvent(event)`. -/
def EventWriter.WriteEvent (wr : EventWriter) (event : Event) (uninit : DataSet) :
    Outcome EventWriter :=
  match wr with
  | .H5Row w => ⟨(w.WriteEvent event uninit).aborted, .H5Row (w.WriteEvent event uninit).state⟩
  | .H5Column w => ⟨(w.WriteEvent event).aborted, .H5Column (w.WriteEvent event).state⟩
  | .Sqlite w => ⟨(w.WriteEvent event).aborted, .Sqlite (w.WriteEvent event).state⟩

/-- The virtual call `event_writer->Close()`. -/
def EventWriter.Close : EventWriter → Outcome EventWriter
  | .H5Row w => ⟨w.Close.aborted, .H5Row w.Close.state⟩
  | .H5Column w => ⟨w.Close.aborted, .H5Column w.Close.state⟩
  | .Sqlite w => ⟨w.Close.aborted, .Sqlite w.Close.state⟩

/-- The virtual call `event_reader->NextEvent(&event)`. -/
def EventReader.NextEvent (rd : EventReader) (event : Event) : ReadResult EventReader :=
  match rd with
  | .Root r =>
    let res := r.NextEvent event
    ⟨res.aborted, res.ret, .Root res.reader, res.event⟩
  | .Sqlite r =>
    let res := r.NextEvent event
    ⟨res.aborted, res.ret, .Sqlite res.reader, res.event⟩

/-! ## Driver -/

/-- The floating-point operations the scan uses: addition of doubles and the
conversion of an `int` to a double. -/
structure FloatOps where
  add : Double → Double → Double
  ofInt : Int → Double

/-- A line printed with `printf` by the scan or by `main`: the progress line
`processed %u k events`, the summary of the optimized run, and
`finished (%u events)`. -/
inductive Line where
  | processed (k : Nat)
  | optimized (nread nskipped : Nat) (dummy : Double)
  | finished (n : Nat)
deriving DecidableEq, Repr

/-- Function `ProcessEvent`: returns at the first candidate whose `h_is_muon` is set,
before the histograms would be filled.  The result tells whether it returned
there (the event is vetoed). -/
def ProcessEvent (event : Event) : Bool :=
  if (event.kaon_candidates 0).h_is_muon ≠ 0 then true
  else if (event.kaon_candidates 1).h_is_muon ≠ 0 then true
  else if (event.kaon_candidates 2).h_is_muon ≠ 0 then true
  else false

/-- The locals `nread`, `nskipped` and `dummy` of `AnalyzeRootOptimized`, and the
lines printed so far. -/
structure ScanState where
  nread : Nat
  nskipped : Nat
  dummy : Double
  printed : List Line

/-- The sum added to `dummy` for one record, in the order the code writes it. -/
def scanSum (fp : FloatOps) (t : TreeEntry) : Double :=
  let s := fp.add (t.dval .H1_PX) (t.dval .H1_PY)
  let s := fp.add s (t.dval .H1_PZ)
  let s := fp.add s (t.dval .H1_ProbK)
  let s := fp.add s (t.dval .H1_ProbPi)
  let s := fp.add s (fp.ofInt (t.ival .H1_Charge))
  let s := fp.add s (t.dval .H2_PX)
  let s := fp.add s (t.dval .H2_PY)
  let s := fp.add s (t.dval .H2_PZ)
  let s := fp.add s (t.dval .H2_ProbK)
  let s := fp.add s (t.dval .H2_ProbPi)
  let s := fp.add s (fp.ofInt (t.ival .H2_Charge))
  let s := fp.add s (t.dval .H3_PX)
  let s := fp.add s (t.dval .H3_PY)
  let s := fp.add s (t.dval .H3_PZ)
  let s := fp.add s (t.dval .H3_ProbK)
  let s := fp.add s (t.dval .H3_ProbPi)
  let s := fp.add s (fp.ofInt (t.ival .H3_Charge))
  s

/-- One pass through the body of `while (reader.Next())` for the record `t`. -/
def scanStep (fp : FloatOps) (s : ScanState) (t : TreeEntry) : ScanState :=
  let nread := (s.nread + 1) % 2 ^ 32
  if t.ival .H1_isMuon ≠ 0 ∨ t.ival .H2_isMuon ≠ 0 ∨ t.ival .H3_isMuon ≠ 0 then
    { s with nread := nread, nskipped := (s.nskipped + 1) % 2 ^ 32 }
  else
    let dummy := fp.add s.dummy (scanSum fp t)
    let printed :=
      if nread % 100000 = 0 then s.printed ++ [.processed (nread / 1000)] else s.printed
    { s with nread := nread, dummy := dummy, printed := printed }

/-- What `AnalyzeRootOptimized` leaves: its return value and the lines printed. -/
structure ScanResult where
  ret : Int
  printed : List Line

/-- Function `AnalyzeRootOptimized`; `entries` are the records of the chain over the input
paths, which `reader.Next()` visits in order. -/
def AnalyzeRootOptimized (fp : FloatOps) (entries : List TreeEntry) : ScanResult :=
  let s := entries.foldl (scanStep fp) ⟨0, 0, Double.zero, []⟩
  { ret := 0, printed := s.printed ++ [.optimized s.nread s.nskipped s.dummy] }

/-- The calls `main` makes on the writer and on the analysis step. -/
inductive Call where
  | Open
  | WriteEvent (event : Event)
  | ProcessEvent (event : Event)
  | Close

/-- The state of the loop of `main`: reader, writer (`none` is `nullptr`), the
local `event`, the counter `i_events`, and the record of calls made and lines
printed. -/
structure Driver where
  reader : EventReader
  writer : Option EventWriter
  event : Event
  i_events : Nat
  calls : List Call
  printed : List Line

/-- The loop `while (event_reader->NextEvent(&event)) { ... }` of `main`, run for
at most `fuel` calls of `NextEvent`; `none` when the fuel does not suffice.
`uninit k` is what the uninitialised local of the row-binary `WriteEvent` holds
when `k` calls have been recorded. -/
def mainLoop (uninit : Nat → DataSet) : Nat → Driver → Option (Outcome Driver)
  | 0, _ => none
  | fuel + 1, d =>
    let res := d.reader.NextEvent d.event
    let d := { d with reader := res.reader, event := res.event }
    if res.aborted then some ⟨true, d⟩ else
    if !res.ret then some ⟨false, d⟩ else
    let o : Outcome Driver :=
      match d.writer with
      | some w =>
        let wo := w.WriteEvent d.event (uninit d.calls.length)
        ⟨wo.aborted, { d with writer := some wo.state, calls := d.calls ++ [.WriteEvent d.event] }⟩
      | none =>
        let _vetoed := ProcessEvent d.event
        ⟨false, { d with calls := d.calls ++ [.ProcessEvent d.event] }⟩
    if o.aborted then some o else
    let d := o.state
    let i_events := (d.i_events + 1) % 2 ^ 32
    let printed :=
      if i_events % 100000 = 0 then d.printed ++ [.processed (i_events / 1000)] else d.printed
    mainLoop uninit fuel { d with i_events := i_events, printed := printed }

/-- What `main` received after option parsing: whether `input_paths` is
non-empty, the format of the first path, the records of the paths read as a
chain of trees, and the paths read as a database (`none`: no such file). -/
structure Inputs where
  nonempty : Bool
  format : FileFormats
  tree : List TreeEntry
  db : Option (List Row)

/-- What a run of `main` leaves: whether it was terminated by an assertion or
`abort()`, the value returned otherwise, the calls made on the writer and the
analysis step, the lines `main` and the scan printed, and the writer. -/
structure MainResult where
  aborted : Bool
  ret : Int
  calls : List Call
  printed : List Line
  writer : Option EventWriter

/-- The virtual call `event_reader->Open(path)`. -/
def EventReader.Open (rd : EventReader) (inputs : Inputs) : Outcome EventReader :=
  match rd with
  | .Root r => ⟨false, .Root (r.Open inputs.tree)⟩
  | .Sqlite r => ⟨(r.Open inputs.db).aborted, .Sqlite (r.Open inputs.db).state⟩

/-- The virtual call `event_reader->PrepareForConversion(&event)`; `main` makes it
on a tree reader only. -/
def EventReader.PrepareForConversion : EventReader → EventReader
  | .Root r => .Root r.PrepareForConversion
  | .Sqlite r => .Sqlite r

/-- Function `main` after the option loop: `root_optimized` is the flag `-r`,
`output_suffix` the format named by `-o` (`none` when the option is absent),
`event` what the uninitialised local `Event event` holds.  The result is `none`
when `fuel` calls of `NextEvent` do not end the loop. -/
def main (fp : FloatOps) (uninit : Nat → DataSet) (fuel : Nat) (root_optimized : Bool)
    (inputs : Inputs) (output_suffix : Option FileFormats) (event : Event) :
    Option MainResult :=
  if root_optimized then
    let r := AnalyzeRootOptimized fp inputs.tree
    some ⟨false, r.ret, [], r.printed, none⟩
  else
  -- assert(!input_paths.empty())
  if !inputs.nonempty then some ⟨true, 0, [], [], none⟩ else
  let input_format := inputs.format
  match (EventReader.Create input_format).state with
  | none => some ⟨true, 0, [], [], none⟩
  | some created =>
    let ro := created.Open inputs
    if ro.aborted then some ⟨true, 0, [], [], none⟩ else
    let event_reader := ro.state
    let start : Outcome Driver :=
      match output_suffix with
      | none => ⟨false, ⟨event_reader, none, event, 0, [], []⟩⟩
      | some output_format =>
        -- assert(input_format == FileFormats::kRoot)
        if input_format ≠ .kRoot then ⟨true, ⟨event_reader, none, event, 0, [], []⟩⟩ else
        let event_reader := event_reader.PrepareForConversion
        -- assert(output_format != FileFormats::kRoot)
        if output_format = .kRoot then ⟨true, ⟨event_reader, none, event, 0, [], []⟩⟩ else
        match (EventWriter.Create output_format).state with
        | none => ⟨true, ⟨event_reader, none, event, 0, [], []⟩⟩
        | some w =>
          let wo := w.Open
          ⟨wo.aborted, ⟨event_reader, some wo.state, event, 0, [.Open], []⟩⟩
    if start.aborted then
      some ⟨true, 0, start.state.calls, start.state.printed, start.state.writer⟩
    else
    match mainLoop uninit fuel start.state with
    | none => none
    | some o =>
      let d := o.state
      if o.aborted then some ⟨true, 0, d.calls, d.printed, d.writer⟩ else
      let printed := d.printed ++ [.finished d.i_events]
      match d.writer with
      | some w =>
        let co := w.Close
        some ⟨co.aborted, 0, d.calls ++ [.Close], printed, some co.state⟩
      | none => some ⟨false, 0, d.calls, printed, none⟩

/-- The values `WriteEvent` binds for an event, in parameter order. -/
def eventParams (e : Event) : List SqlValue :=
  [.ofDouble e.b_flight_distance, .ofDouble e.b_vertex_chi2,
   .ofDouble (e.kaon_candidates 0).h_px, .ofDouble (e.kaon_candidates 0).h_py,
   .ofDouble (e.kaon_candidates 0).h_pz, .ofDouble (e.kaon_candidates 0).h_prob_k,
   .ofDouble (e.kaon_candidates 0).h_prob_pi, .integer (e.kaon_candidates 0).h_charge,
   .ofDouble (e.kaon_candidates 0).h_ip_chi2, .integer (e.kaon_candidates 0).h_is_muon,
   .ofDouble (e.kaon_candidates 1).h_px, .ofDouble (e.kaon_candidates 1).h_py,
   .ofDouble (e.kaon_candidates 1).h_pz, .ofDouble (e.kaon_candidates 1).h_prob_k,
   .ofDouble (e.kaon_candidates 1).h_prob_pi, .integer (e.kaon_candidates 1).h_charge,
   .ofDouble (e.kaon_candidates 1).h_ip_chi2, .integer (e.kaon_candidates 1).h_is_muon,
   .ofDouble (e.kaon_candidates 2).h_px, .ofDouble (e.kaon_candidates 2).h_py,
   .ofDouble (e.kaon_candidates 2).h_pz, .ofDouble (e.kaon_candidates 2).h_prob_k,
   .ofDouble (e.kaon_candidates 2).h_prob_pi, .integer (e.kaon_candidates 2).h_charge,
   .ofDouble (e.kaon_candidates 2).h_ip_chi2, .integer (e.kaon_candidates 2).h_is_muon]

/-- The row `WriteEvent` inserts for an event: the 26 bound values as the columns
of the table hold them. -/
def eventRow (e : Event) : Row :=
  insertedRow (eventParams e)

/-- The cell of a REAL column after the double `d` is bound and inserted. -/
def storedReal (d : Double) : SqlValue :=
  applyAffinity .REAL (SqlValue.ofDouble d)

/-- Write `E` with `WriteEvent` into a freshly opened store, close the writer, open
the reader on the file and call `NextEvent` on an event holding `prior`. -/
def sqliteWriteThenRead (E prior : Event) : ReadResult EventReaderSqlite :=
  let opened := EventWriterSqlite.Open EventWriterSqlite.new
  let written := opened.state.WriteEvent E
  let closed := written.state.Close
  let reader := EventReaderSqlite.Open EventReaderSqlite.new closed.state.file
  let res := reader.state.NextEvent prior
  { res with aborted :=
      opened.aborted || written.aborted || closed.aborted || reader.aborted || res.aborted }

/-- The events a tree reader yields in its first `n` calls of `NextEvent`: the
content of the `Event` object after call 1, after call 2, ..., after call `n`. -/
def EventReaderRoot.yields (r : EventReaderRoot) (event : Event) (n : Nat) : List Event :=
  (List.range n).map (fun k => (r.afterCalls event (k + 1)).2)

/-- Whether a recorded call is a `WriteEvent`. -/
def Call.isWriteEvent : Call → Bool
  | .WriteEvent _ => true
  | _ => false

/-- Whether a recorded call is a `ProcessEvent`. -/
def Call.isProcessEvent : Call → Bool
  | .ProcessEvent _ => true
  | _ => false

/-- Whether a recorded call is a `Close`. -/
def Call.isClose : Call → Bool
  | .Close => true
  | _ => false

/-- Whether at least one of the branches H1_isMuon, H2_isMuon, H3_isMuon of a record
is non-zero. -/
def TreeEntry.anyMuon (t : TreeEntry) : Bool :=
  decide (t.ival .H1_isMuon ≠ 0 ∨ t.ival .H2_isMuon ≠ 0 ∨ t.ival .H3_isMuon ≠ 0)

/-! ## Sample values -/

/-- A candidate with distinct member values derived from `n`, and muon flag `mu`. -/
def exampleCandidate (n : Nat) (mu : Int) : KaonCandidate :=
  ⟨⟨n⟩, ⟨n + 1⟩, ⟨n + 2⟩, ⟨n + 3⟩, ⟨n + 4⟩, n + 5, mu, ⟨n + 6⟩⟩

/-- An event whose three muon flags are clear. -/
def eventA : Event := ⟨⟨1⟩, ⟨2⟩, fun i => exampleCandidate (10 * (i.val + 1)) 0⟩

/-- The event `eventA` with another `b_flight_distance`. -/
def eventA2 : Event := { eventA with b_flight_distance := ⟨77⟩ }

/-- An event that differs from `eventA` in every member. -/
def eventB : Event := ⟨⟨100⟩, ⟨200⟩, fun i => exampleCandidate (1000 * (i.val + 1)) 7⟩

/-- A table row in which only `H2_isMuon` is set. -/
def muonRow : Row :=
  eventRow ⟨⟨1⟩, ⟨2⟩, fun i => exampleCandidate (10 * (i.val + 1)) (if i = 1 then 1 else 0)⟩

/-- A table row, as another program can store it, whose `H1_isMuon` cell holds the
INTEGER 4294967296 (a non-zero value whose low 32 bits are zero); its other
cells are those of the row of `eventA`, the other two flags being 0. -/
def wideFlagRow : Row := (eventRow eventA).set 9 (.integer 4294967296)

/-- A tree record whose `double` branches hold distinct values (the position of
the branch in the schema) and whose muon flags are `m1`, `m2`, `m3`. -/
def exampleEntry (m1 m2 m3 : Int) : TreeEntry :=
  { dval := fun b => ⟨treeDBranches.indexOf b⟩,
    ival := fun b => match b with
      | .H1_isMuon => m1 | .H2_isMuon => m2 | .H3_isMuon => m3
      | .H1_Charge => 1 | .H2_Charge => -1 | .H3_Charge => 1 }

/-- A record of the row-binary format with every member zero. -/
def zeroDataSet : DataSet :=
  ⟨⟨0⟩, ⟨0⟩, ⟨0⟩, ⟨0⟩, ⟨0⟩, ⟨0⟩, ⟨0⟩, 0, 0, ⟨0⟩, ⟨0⟩, ⟨0⟩, ⟨0⟩, ⟨0⟩, ⟨0⟩, 0, 0, ⟨0⟩,
    ⟨0⟩, ⟨0⟩, ⟨0⟩, ⟨0⟩, ⟨0⟩, 0, 0, ⟨0⟩⟩

/-- Stand-ins for the floating-point operations, acting on the bit patterns. -/
def exampleOps : FloatOps := ⟨fun a b => ⟨a.bits + b.bits⟩, fun n => ⟨n.toNat⟩⟩

/-! ## Theorems -/

/-- A C `int` is its own low 32 bits. -/
theorem wrapInt32_of_isInt32 (n : Int) (h : isInt32 n) : wrapInt32 n = n := by
  unfold isInt32 at h
  unfold wrapInt32
  omega

/-- Two doubles with the same bit pattern are the same. -/
theorem Double.ext_bits (a b : Double) (h : a.bits = b.bits) : a = b := by
  cases a; cases b; simp_all

/-- A zero is not a NaN. -/
theorem Double.isZero_not_isNaN (d : Double) (h : d.isZero = true) : d.isNaN = false := by
  simp only [Double.isZero, decide_eq_true_eq] at h
  simp [Double.isNaN, h.1]

/-- A zero converts to the integer 0. -/
theorem Double.isZero_toInt64 (d : Double) (h : d.isZero = true) : d.toInt64 = 0 := by
  simp only [Double.isZero, decide_eq_true_eq] at h
  simp [Double.toInt64, h.1]

/-- What the comparison of two doubles says when it holds. -/
theorem Double.eq_true_iff (a b : Double) :
    Double.eq a b = true ↔
      a.isNaN = false ∧ b.isNaN = false ∧
        (a.bits = b.bits ∨ (a.isZero = true ∧ b.isZero = true)) := by
  simp [Double.eq, and_assoc]

/-- Whether a REAL is kept as a whole number by a numeric column. -/
theorem integerAffinity_real (d : Double) (hn : d.isNaN = false) :
    integerAffinity (.real d) =
      if Double.eq (Double.ofInt64 d.toInt64) d ∧ -2 ^ 63 < d.toInt64 ∧ d.toInt64 < 2 ^ 63 - 1
      then .integer d.toInt64 else .real d := by
  simp [integerAffinity, hn]

/-- The cell of a REAL column after a double that is not a NaN is stored: a REAL
that compares equal to the double. -/
theorem storedReal_real (d : Double) (hn : d.isNaN = false) :
    ∃ x : Double, storedReal d = .real x ∧ x.isNaN = false ∧
      (x.bits = d.bits ∨ (x.isZero = true ∧ d.isZero = true)) := by
  unfold storedReal SqlValue.ofDouble applyAffinity
  simp only [hn, Bool.false_eq_true, if_false, integerAffinity_real d hn]
  by_cases hC : Double.eq (Double.ofInt64 d.toInt64) d ∧ -2 ^ 63 < d.toInt64 ∧
      d.toInt64 < 2 ^ 63 - 1
  · rw [if_pos hC]
    obtain ⟨h1, _, h3⟩ := (Double.eq_true_iff _ _).1 hC.1
    exact ⟨_, rfl, h1, h3⟩
  · rw [if_neg hC]
    exact ⟨d, rfl, hn, Or.inl rfl⟩

/-- A zero is stored in a REAL column as `+0.0`. -/
theorem storedReal_zero (d : Double) (hz : d.isZero = true) : storedReal d = .real ⟨0⟩ := by
  have hn := Double.isZero_not_isNaN d hz
  have hi := Double.isZero_toInt64 d hz
  unfold storedReal SqlValue.ofDouble applyAffinity
  simp only [hn, Bool.false_eq_true, if_false, integerAffinity_real d hn, hi]
  have hC : Double.eq (Double.ofInt64 0) d = true ∧ (-2 ^ 63 < (0 : Int)) ∧
      ((0 : Int) < 2 ^ 63 - 1) := by
    refine ⟨(Double.eq_true_iff _ _).2 ⟨by decide, hn, Or.inr ⟨by decide, hz⟩⟩, by decide,
      by decide⟩
  rw [if_pos hC]
  rfl

/-- What `sqlite3_column_double` returns for the cell of a REAL column after the
double `d` was stored: `d` itself, except that a NaN and `-0.0` come back as
`0.0`. -/
theorem storedReal_toDouble (d : Double) :
    (storedReal d).toDouble = if d.isNaN = true ∨ d.isNegZero = true then Double.zero else d := by
  by_cases hn : d.isNaN = true
  · rw [if_pos (Or.inl hn)]
    simp [storedReal, SqlValue.ofDouble, hn, applyAffinity, integerAffinity, SqlValue.toDouble]
  · have hn' : d.isNaN = false := by simpa using hn
    by_cases hz : d.isZero = true
    · rw [storedReal_zero d hz]
      by_cases hb : d.bits = 0
      · have hd : d = ⟨0⟩ := Double.ext_bits _ _ hb
        subst hd
        decide
      · have : d.isNegZero = true := by simp [Double.isNegZero, hz, hb]
        rw [if_pos (Or.inr this)]
        decide
    · have hnz : d.isNegZero = false := by simp [Double.isNegZero, hz]
      rw [if_neg (by simp [hn', hnz])]
      obtain ⟨x, hx, hxn, hxb⟩ := storedReal_real d hn'
      rw [hx]
      simp only [SqlValue.toDouble, hxn, Bool.false_eq_true, if_false]
      rcases hxb with h | ⟨_, h⟩
      · exact Double.ext_bits _ _ h
      · exact absurd h hz

/-- Two doubles that are not NaNs and do not compare equal are stored in a REAL
column as different cells. -/
theorem storedReal_ne (d1 d2 : Double) (h1 : d1.isNaN = false) (h2 : d2.isNaN = false)
    (hne : Double.eq d1 d2 = false) : storedReal d1 ≠ storedReal d2 := by
  obtain ⟨x, hx, _, hxb⟩ := storedReal_real d1 h1
  obtain ⟨y, hy, _, hyb⟩ := storedReal_real d2 h2
  intro h
  rw [hx, hy] at h
  have hxy : x = y := by injection h
  subst hxy
  have : Double.eq d1 d2 = true := by
    refine (Double.eq_true_iff _ _).2 ⟨h1, h2, ?_⟩
    rcases hxb with a | ⟨a1, a2⟩ <;> rcases hyb with b | ⟨b1, b2⟩
    · exact Or.inl (a.symm.trans b)
    · refine Or.inr ⟨?_, b2⟩
      have : d1 = x := Double.ext_bits _ _ a.symm
      rw [this]; exact b1
    · refine Or.inr ⟨a2, ?_⟩
      have : d2 = x := Double.ext_bits _ _ b.symm
      rw [this]; exact a1
    · exact Or.inr ⟨a2, b2⟩
  rw [this] at hne
  exact absurd hne (by decide)

/-- A list of length 26 is a list of 26 elements. -/
theorem length_26 {α : Type} (ps : List α) (h : ps.length = 26) :
    ∃ a0 a1 a2 a3 a4 a5 a6 a7 a8 a9 a10 a11 a12 a13 a14 a15 a16 a17 a18 a19 a20 a21 a22 a23
      a24 a25, ps = [a0, a1, a2, a3, a4, a5, a6, a7, a8, a9, a10, a11, a12, a13, a14, a15,
        a16, a17, a18, a19, a20, a21, a22, a23, a24, a25] := by
  match ps, h with
  | [a0, a1, a2, a3, a4, a5, a6, a7, a8, a9, a10, a11, a12, a13, a14, a15,
        a16, a17, a18, a19, a20, a21, a22, a23, a24, a25], _ =>
    exact ⟨a0, a1, a2, a3, a4, a5, a6, a7, a8, a9, a10, a11, a12, a13, a14, a15,
        a16, a17, a18, a19, a20, a21, a22, a23, a24, a25, rfl⟩

/-- On an opened relational writer, inside its transaction, `WriteEvent` succeeds,
appends the row of the event to the table and leaves the 26 values bound. -/
theorem WriteEvent_opened (w : EventWriterSqlite) (rows : List Row) (ps : List SqlValue)
    (hdb : w.conn = some rows) (htx : w.transaction = true) (hst : w.sql_insert_ = some ps)
    (hlen : ps.length = 26) (e : Event) :
    w.WriteEvent e =
      ⟨false, { w with conn := some (rows ++ [eventRow e]),
                       sql_insert_ := some (eventParams e) }⟩ := by
  obtain ⟨a0, a1, a2, a3, a4, a5, a6, a7, a8, a9, a10, a11, a12, a13, a14, a15,
        a16, a17, a18, a19, a20, a21, a22, a23, a24, a25, rfl⟩ := length_26 ps hlen
  simp [EventWriterSqlite.WriteEvent, hdb, htx, hst, sqlite3_bind_double, sqlite3_bind_int,
    sqlite3_bind, sqlite3_step_insert, sqlite3_reset, SQLITE_OK, SQLITE_DONE, eventRow,
    eventParams]

section FieldLemmas
variable (e : Event) (i j : Fin 3) (v : Double) (n : Int)

@[simp] theorem setD_b_flight_distance (f : DField) :
    (e.setD i f v).b_flight_distance = e.b_flight_distance := rfl
@[simp] theorem setD_b_vertex_chi2 (f : DField) :
    (e.setD i f v).b_vertex_chi2 = e.b_vertex_chi2 := rfl
@[simp] theorem setI_b_flight_distance (f : IField) :
    (e.setI i f n).b_flight_distance = e.b_flight_distance := rfl
@[simp] theorem setI_b_vertex_chi2 (f : IField) :
    (e.setI i f n).b_vertex_chi2 = e.b_vertex_chi2 := rfl

@[simp] theorem setD_getD (f g : DField) :
    ((e.setD i f v).kaon_candidates j).getD g =
      if j = i ∧ g = f then v else (e.kaon_candidates j).getD g := by
  unfold Event.setD
  by_cases h : j = i
  · cases f <;> cases g <;> simp [h, KaonCandidate.setD, KaonCandidate.getD]
  · simp [h]

@[simp] theorem setD_getI (f : DField) (g : IField) :
    ((e.setD i f v).kaon_candidates j).getI g = (e.kaon_candidates j).getI g := by
  unfold Event.setD
  by_cases h : j = i
  · cases f <;> cases g <;> simp [h, KaonCandidate.setD, KaonCandidate.getI]
  · simp [h]

@[simp] theorem setI_getI (f g : IField) :
    ((e.setI i f n).kaon_candidates j).getI g =
      if j = i ∧ g = f then n else (e.kaon_candidates j).getI g := by
  unfold Event.setI
  by_cases h : j = i
  · cases f <;> cases g <;> simp [h, KaonCandidate.setI, KaonCandidate.getI]
  · simp [h]

@[simp] theorem setI_getD (f : IField) (g : DField) :
    ((e.setI i f n).kaon_candidates j).getD g = (e.kaon_candidates j).getD g := by
  unfold Event.setI
  by_cases h : j = i
  · cases f <;> cases g <;> simp [h, KaonCandidate.setI, KaonCandidate.getD]
  · simp [h]

end FieldLemmas

/-- The result row that the select produces for the row of an event. -/
theorem selectRow_eventRow (e : Event) :
    selectRow (eventRow e) =
      [storedReal (e.kaon_candidates 0).h_px, storedReal (e.kaon_candidates 0).h_py,
       storedReal (e.kaon_candidates 0).h_pz, storedReal (e.kaon_candidates 0).h_prob_k,
       storedReal (e.kaon_candidates 0).h_prob_pi, .integer (e.kaon_candidates 0).h_charge,
       .integer (e.kaon_candidates 0).h_is_muon,
       storedReal (e.kaon_candidates 1).h_px, storedReal (e.kaon_candidates 1).h_py,
       storedReal (e.kaon_candidates 1).h_pz, storedReal (e.kaon_candidates 1).h_prob_k,
       storedReal (e.kaon_candidates 1).h_prob_pi, .integer (e.kaon_candidates 1).h_charge,
       .integer (e.kaon_candidates 1).h_is_muon,
       storedReal (e.kaon_candidates 2).h_px, storedReal (e.kaon_candidates 2).h_py,
       storedReal (e.kaon_candidates 2).h_pz, storedReal (e.kaon_candidates 2).h_prob_k,
       storedReal (e.kaon_candidates 2).h_prob_pi, .integer (e.kaon_candidates 2).h_charge,
       .integer (e.kaon_candidates 2).h_is_muon] := rfl

/-- Writing an event into a fresh store and opening the reader on it leaves a
reader whose statement is before the single row of that event. -/
theorem sqliteWriteThenRead_eq (E prior : Event) :
    sqliteWriteThenRead E prior =
      (EventReaderSqlite.NextEvent
        { db_ := some [eventRow E],
          sql_select_ := some { result := [eventRow E], rest := [eventRow E], current := none } }
        prior) := by
  have h := WriteEvent_opened (EventWriterSqlite.Open EventWriterSqlite.new).state []
    (List.replicate 26 .null) rfl rfl rfl rfl E
  simp only [sqliteWriteThenRead, h]
  simp [EventWriterSqlite.Close, EventReaderSqlite.Open, EventReaderSqlite.new,
    EventWriterSqlite.Open, EventWriterSqlite.new]

/-- When the statement has a row to step to, `NextEvent` returns true. -/
theorem NextEvent_on_row (r : EventReaderSqlite) (stmt : SelectStmt) (row : Row) (rest : List Row)
    (hs : r.sql_select_ = some stmt) (hr : stmt.rest = row :: rest) (prior : Event) :
    (r.NextEvent prior).aborted = false ∧ (r.NextEvent prior).ret = true := by
  simp only [EventReaderSqlite.NextEvent, hs, sqlite3_step_select, hr]
  simp [SQLITE_ROW, SQLITE_DONE]
  split_ifs <;> simp

/-- The event that `NextEvent` leaves when the statement steps to `row`. -/
theorem NextEvent_event (r : EventReaderSqlite) (stmt : SelectStmt) (row : Row) (rest : List Row)
    (hs : r.sql_select_ = some stmt) (hr : stmt.rest = row :: rest) (prior : Event) :
    (r.NextEvent prior).event =
      let c : Nat → SqlValue := fun j => (selectRow row).getD j .null
      let e0 := prior.setI 0 .h_is_muon (c 6).toInt
      if (c 6).toInt ≠ 0 then e0 else
      let e1 := e0.setI 1 .h_is_muon (c 13).toInt
      if (c 13).toInt ≠ 0 then e1 else
      let e2 := e1.setI 2 .h_is_muon (c 20).toInt
      if (c 20).toInt ≠ 0 then e2 else
      ((((((((((((((((((e2.setD 0 .h_px (c 0).toDouble).setD 0 .h_py (c 1).toDouble).setD 0 .h_pz
        (c 2).toDouble).setD 0 .h_prob_k (c 3).toDouble).setD 0 .h_prob_pi (c 4).toDouble).setI 0
        .h_charge (c 5).toInt).setD 1 .h_px (c 7).toDouble).setD 1 .h_py (c 8).toDouble).setD 1 .h_pz
        (c 9).toDouble).setD 1 .h_prob_k (c 10).toDouble).setD 1 .h_prob_pi (c 11).toDouble).setI 1
        .h_charge (c 12).toInt).setD 2 .h_px (c 14).toDouble).setD 2 .h_py (c 15).toDouble).setD 2
        .h_pz (c 16).toDouble).setD 2 .h_prob_k (c 17).toDouble).setD 2 .h_prob_pi
        (c 18).toDouble).setI 2 .h_charge (c 19).toInt) := by
  have hm0 : ∀ (e : Event) (n : Int), ((e.setI 0 .h_is_muon n).kaon_candidates 0).h_is_muon = n :=
    fun e n => by simpa [KaonCandidate.getI] using setI_getI e 0 0 n .h_is_muon .h_is_muon
  have hm1 : ∀ (e : Event) (n : Int), ((e.setI 1 .h_is_muon n).kaon_candidates 1).h_is_muon = n :=
    fun e n => by simpa [KaonCandidate.getI] using setI_getI e 1 1 n .h_is_muon .h_is_muon
  have hm2 : ∀ (e : Event) (n : Int), ((e.setI 2 .h_is_muon n).kaon_candidates 2).h_is_muon = n :=
    fun e n => by simpa [KaonCandidate.getI] using setI_getI e 2 2 n .h_is_muon .h_is_muon
  simp only [EventReaderSqlite.NextEvent, hs, sqlite3_step_select, hr, sqlite3_column_int,
    sqlite3_column_double, hm0, hm1, hm2]
  simp only [SQLITE_ROW, SQLITE_DONE, or_true, not_true_eq_false, if_false]
  split_ifs <;> rfl

/-- The members of a candidate, read through `getD` and `getI`. -/
theorem fields_as_get (k : KaonCandidate) :
    k.h_px = k.getD .h_px ∧ k.h_py = k.getD .h_py ∧ k.h_pz = k.getD .h_pz ∧
    k.h_prob_k = k.getD .h_prob_k ∧ k.h_prob_pi = k.getD .h_prob_pi ∧
    k.h_ip_chi2 = k.getD .h_ip_chi2 ∧ k.h_charge = k.getI .h_charge ∧
    k.h_is_muon = k.getI .h_is_muon := ⟨rfl, rfl, rfl, rfl, rfl, rfl, rfl, rfl⟩

/-- C1 (as stated): counterexample.  `eventA` has its three muon flags clear; written
into a fresh store and read back over `eventB`, `NextEvent` returns true but
`kaon_candidates[0].h_ip_chi2` of the destination is not that of `eventA`. -/
theorem sqlite_round_trip_ip_chi2_counterexample :
    (∀ i, (eventA.kaon_candidates i).h_is_muon = 0) ∧
    (sqliteWriteThenRead eventA eventB).ret = true ∧
    ((sqliteWriteThenRead eventA eventB).event.kaon_candidates 0).h_ip_chi2 ≠
      (eventA.kaon_candidates 0).h_ip_chi2 := by
  decide

/-- C1 (amended): for every event `E` whose three `h_is_muon` flags are clear (its
`h_charge` members being C ints) and every prior content of the destination,
writing `E` into a freshly opened store and reading the row back makes
`NextEvent` return true without a failed assertion, and leaves the destination
equal to `E` on `h_charge` and `h_is_muon` of all three candidates and on each
of `h_px`, `h_py`, `h_pz`, `h_prob_k`, `h_prob_pi` that is neither a NaN nor
`-0.0`; a NaN and `-0.0` come back as `0.0`; `h_ip_chi2` of each candidate
keeps the destination's prior value. -/
theorem sqlite_round_trip (E prior : Event)
    (hclear : ∀ i, (E.kaon_candidates i).h_is_muon = 0)
    (hint : ∀ i, isInt32 (E.kaon_candidates i).h_charge) :
    (sqliteWriteThenRead E prior).aborted = false ∧
    (sqliteWriteThenRead E prior).ret = true ∧
    ∀ i,
      (∀ f : DField, f ≠ .h_ip_chi2 →
        ((sqliteWriteThenRead E prior).event.kaon_candidates i).getD f =
          if ((E.kaon_candidates i).getD f).isNaN = true ∨
              ((E.kaon_candidates i).getD f).isNegZero = true
          then Double.zero else (E.kaon_candidates i).getD f) ∧
      ((sqliteWriteThenRead E prior).event.kaon_candidates i).h_charge =
        (E.kaon_candidates i).h_charge ∧
      ((sqliteWriteThenRead E prior).event.kaon_candidates i).h_is_muon =
        (E.kaon_candidates i).h_is_muon ∧
      ((sqliteWriteThenRead E prior).event.kaon_candidates i).h_ip_chi2 =
        (prior.kaon_candidates i).h_ip_chi2 := by
  rw [sqliteWriteThenRead_eq]
  have h0 := hclear 0
  have h1 := hclear 1
  have h2 := hclear 2
  have c0 := wrapInt32_of_isInt32 _ (hint 0)
  have c1 := wrapInt32_of_isInt32 _ (hint 1)
  have c2 := wrapInt32_of_isInt32 _ (hint 2)
  have w0 : wrapInt32 0 = 0 := by decide
  refine ⟨?_, ?_, ?_⟩
  · exact (NextEvent_on_row _ _ _ _ rfl rfl prior).1
  · exact (NextEvent_on_row _ _ _ _ rfl rfl prior).2
  · rw [NextEvent_event _ _ _ _ rfl rfl prior, selectRow_eventRow]
    simp only [List.getD_cons_zero, List.getD_cons_succ, SqlValue.toInt, storedReal_toDouble, h0,
      h1, h2, w0, c0, c1, c2, ne_eq, not_true_eq_false, if_false]
    intro i
    simp only [fun k => (fields_as_get k).2.2.2.2.2.1,
      fun k => (fields_as_get k).2.2.2.2.2.2.1, fun k => (fields_as_get k).2.2.2.2.2.2.2]
    simp only [setD_getD, setI_getD, setD_getI, setI_getI]
    refine ⟨?_, ?_, ?_, ?_⟩
    · intro f hf
      fin_cases i <;> cases f <;> first | exact absurd rfl hf | simp [KaonCandidate.getD]
    · fin_cases i <;> simp
    · fin_cases i <;> simp <;> simp [KaonCandidate.getI, h0, h1, h2]
    · fin_cases i <;> simp

/-- Witness for C1 (amended): `eventA` written and read back over `eventB`. -/
theorem sqlite_round_trip_witness :
    (∀ i, (eventA.kaon_candidates i).h_is_muon = 0) ∧
    (∀ i, isInt32 (eventA.kaon_candidates i).h_charge) ∧
    (sqliteWriteThenRead eventA eventB).ret = true ∧
    ((sqliteWriteThenRead eventA eventB).event.kaon_candidates 2).h_charge =
      (eventA.kaon_candidates 2).h_charge :=
  ⟨by decide, by decide, (sqlite_round_trip eventA eventB (by decide) (by decide)).2.1,
    ((sqlite_round_trip eventA eventB (by decide) (by decide)).2.2 2).2.1⟩

/-- C3 (as stated): counterexample.  The cell `H1_isMuon` of `wideFlagRow` holds the
non-zero INTEGER 4294967296, which `sqlite3_column_int` returns as 0, and the
other two flags are 0: `NextEvent` decodes the whole row, and
`kaon_candidates[0].h_px` of the event no longer has its value before the
call. -/
theorem sqlite_muon_short_circuit_counterexample :
    wideFlagRow.cell .H1_isMuon = .integer 4294967296 ∧
    ((EventReaderSqlite.Open .new (some [wideFlagRow])).state.NextEvent eventB).ret = true ∧
    (((EventReaderSqlite.Open .new (some [wideFlagRow])).state.NextEvent
      eventB).event.kaon_candidates 0).h_px ≠ (eventB.kaon_candidates 0).h_px := by
  decide

/-- C3 (amended): when the statement steps to a stored row in which at least one of
the three isMuon columns reads non-zero through `sqlite3_column_int` (the value
of the cell as a C int), `NextEvent` returns true and leaves every non-flag
member of the event (`h_px`, `h_py`, `h_pz`, `h_prob_k`, `h_prob_pi`,
`h_charge`, `h_ip_chi2` of the three candidates, `b_flight_distance`,
`b_vertex_chi2`) at its value before the call, whatever that was. -/
theorem sqlite_muon_short_circuit (r : EventReaderSqlite) (stmt : SelectStmt) (row : Row)
    (rest : List Row) (prior : Event)
    (hs : r.sql_select_ = some stmt) (hr : stmt.rest = row :: rest)
    (hmuon : (row.cell .H1_isMuon).toInt ≠ 0 ∨ (row.cell .H2_isMuon).toInt ≠ 0 ∨
      (row.cell .H3_isMuon).toInt ≠ 0) :
    (r.NextEvent prior).aborted = false ∧
    (r.NextEvent prior).ret = true ∧
    (r.NextEvent prior).event.b_flight_distance = prior.b_flight_distance ∧
    (r.NextEvent prior).event.b_vertex_chi2 = prior.b_vertex_chi2 ∧
    ∀ i,
      ((r.NextEvent prior).event.kaon_candidates i).h_px = (prior.kaon_candidates i).h_px ∧
      ((r.NextEvent prior).event.kaon_candidates i).h_py = (prior.kaon_candidates i).h_py ∧
      ((r.NextEvent prior).event.kaon_candidates i).h_pz = (prior.kaon_candidates i).h_pz ∧
      ((r.NextEvent prior).event.kaon_candidates i).h_prob_k =
        (prior.kaon_candidates i).h_prob_k ∧
      ((r.NextEvent prior).event.kaon_candidates i).h_prob_pi =
        (prior.kaon_candidates i).h_prob_pi ∧
      ((r.NextEvent prior).event.kaon_candidates i).h_charge =
        (prior.kaon_candidates i).h_charge ∧
      ((r.NextEvent prior).event.kaon_candidates i).h_ip_chi2 =
        (prior.kaon_candidates i).h_ip_chi2 := by
  have c6 : (selectRow row).getD 6 .null = row.cell .H1_isMuon := rfl
  have c13 : (selectRow row).getD 13 .null = row.cell .H2_isMuon := rfl
  have c20 : (selectRow row).getD 20 .null = row.cell .H3_isMuon := rfl
  refine ⟨(NextEvent_on_row r stmt row rest hs hr prior).1,
    (NextEvent_on_row r stmt row rest hs hr prior).2, ?_⟩
  rw [NextEvent_event r stmt row rest hs hr prior]
  simp only [c6, c13, c20]
  simp only [fun k => (fields_as_get k).1, fun k => (fields_as_get k).2.1,
    fun k => (fields_as_get k).2.2.1, fun k => (fields_as_get k).2.2.2.1,
    fun k => (fields_as_get k).2.2.2.2.1, fun k => (fields_as_get k).2.2.2.2.2.1,
    fun k => (fields_as_get k).2.2.2.2.2.2.1]
  by_cases h1 : (row.cell .H1_isMuon).toInt = 0
  · by_cases h2 : (row.cell .H2_isMuon).toInt = 0
    · have h3 : (row.cell .H3_isMuon).toInt ≠ 0 := by tauto
      simp only [h1, h2, h3, ne_eq, not_true_eq_false, not_false_eq_true, if_true, if_false]
      simp
    · simp only [h1, h2, ne_eq, not_true_eq_false, not_false_eq_true, if_true, if_false]
      simp
  · simp only [h1, ne_eq, not_false_eq_true, if_true]
    simp

/-- Witness for C3 (amended): a reader opened on a store whose only row has `H2_isMuon` set,
called on `eventB`. -/
theorem sqlite_muon_short_circuit_witness :
    ((muonRow.cell .H1_isMuon).toInt ≠ 0 ∨ (muonRow.cell .H2_isMuon).toInt ≠ 0 ∨
      (muonRow.cell .H3_isMuon).toInt ≠ 0) ∧
    (((EventReaderSqlite.Open .new (some [muonRow])).state.NextEvent eventB).event.kaon_candidates
      0).h_px = (eventB.kaon_candidates 0).h_px :=
  ⟨by decide,
    ((sqlite_muon_short_circuit (EventReaderSqlite.Open .new (some [muonRow])).state
      { result := [muonRow], rest := [muonRow], current := none } muonRow [] eventB rfl rfl
      (by decide)).2.2.2.2 0).1⟩

/-- C7 (as stated): counterexample.  `eventA` and `eventA2` agree on all 24 candidate
members and differ in `b_flight_distance`; written into a freshly opened store
they insert different rows, and parameter 1 of the insert holds the
`b_flight_distance` that was bound. -/
theorem sqlite_write_scalars_counterexample :
    (∀ i, eventA.kaon_candidates i = eventA2.kaon_candidates i) ∧
    (EventWriterSqlite.new.Open.state.WriteEvent eventA).state.conn ≠
      (EventWriterSqlite.new.Open.state.WriteEvent eventA2).state.conn ∧
    (EventWriterSqlite.new.Open.state.WriteEvent eventA).state.sql_insert_.map
      (fun ps => ps.getD 0 .null) = some (.real eventA.b_flight_distance) := by
  decide

/-- The first two cells of the row of an event are the two scalars as stored. -/
theorem eventRow_scalars (e : Event) :
    (eventRow e).getD 0 .null = storedReal e.b_flight_distance ∧
    (eventRow e).getD 1 .null = storedReal e.b_vertex_chi2 := ⟨rfl, rfl⟩

/-- C7 (amended): on an opened writer, `WriteEvent` binds `b_flight_distance` to the
parameter of column B_FlightDistance and `b_vertex_chi2` to the parameter of
column B_VertecChi2 (a NaN is bound as NULL).  Two events that agree on all 24
candidate members insert identical rows when they also agree on the two
scalars, and insert different rows whenever their `b_flight_distance`, or
their `b_vertex_chi2`, are two numbers (no NaN) that compare unequal. -/
theorem sqlite_write_binds_scalars (w : EventWriterSqlite) (rows : List Row)
    (ps : List SqlValue) (e1 e2 : Event)
    (hdb : w.conn = some rows) (htx : w.transaction = true) (hst : w.sql_insert_ = some ps)
    (hlen : ps.length = 26)
    (hcand : ∀ i, e1.kaon_candidates i = e2.kaon_candidates i) :
    (w.WriteEvent e1).aborted = false ∧
    (∃ qs, (w.WriteEvent e1).state.sql_insert_ = some qs ∧
      qs.getD 0 .null =
        (if e1.b_flight_distance.isNaN then .null else .real e1.b_flight_distance) ∧
      qs.getD 1 .null =
        (if e1.b_vertex_chi2.isNaN then .null else .real e1.b_vertex_chi2)) ∧
    (e1.b_flight_distance = e2.b_flight_distance → e1.b_vertex_chi2 = e2.b_vertex_chi2 →
      (w.WriteEvent e1).state.conn = (w.WriteEvent e2).state.conn) ∧
    (e1.b_flight_distance.isNaN = false → e2.b_flight_distance.isNaN = false →
      Double.eq e1.b_flight_distance e2.b_flight_distance = false →
      (w.WriteEvent e1).state.conn ≠ (w.WriteEvent e2).state.conn) ∧
    (e1.b_vertex_chi2.isNaN = false → e2.b_vertex_chi2.isNaN = false →
      Double.eq e1.b_vertex_chi2 e2.b_vertex_chi2 = false →
      (w.WriteEvent e1).state.conn ≠ (w.WriteEvent e2).state.conn) := by
  rw [WriteEvent_opened w rows ps hdb htx hst hlen e1,
    WriteEvent_opened w rows ps hdb htx hst hlen e2]
  have hrows : ∀ a b : Row, some (rows ++ [a]) = some (rows ++ [b]) → a = b := by
    intro a b h
    simpa using h
  refine ⟨rfl, ⟨eventParams e1, rfl, rfl, rfl⟩, ?_, ?_, ?_⟩
  · intro h1 h2
    have : e1 = e2 := by
      cases e1; cases e2
      simp only [Event.mk.injEq]
      exact ⟨h1, h2, funext hcand⟩
    rw [this]
  · intro n1 n2 hne h
    have hr := hrows _ _ h
    have hc := congrArg (fun r : Row => r.getD 0 .null) hr
    simp only [(eventRow_scalars e1).1, (eventRow_scalars e2).1] at hc
    exact storedReal_ne _ _ n1 n2 hne hc
  · intro n1 n2 hne h
    have hr := hrows _ _ h
    have hc := congrArg (fun r : Row => r.getD 1 .null) hr
    simp only [(eventRow_scalars e1).2, (eventRow_scalars e2).2] at hc
    exact storedReal_ne _ _ n1 n2 hne hc

/-- Witness for C7 (amended): the freshly opened writer, `eventA` and `eventA2`. -/
theorem sqlite_write_binds_scalars_witness :
    (∀ i, eventA.kaon_candidates i = eventA2.kaon_candidates i) ∧
    eventA.b_flight_distance.isNaN = false ∧ eventA2.b_flight_distance.isNaN = false ∧
    Double.eq eventA.b_flight_distance eventA2.b_flight_distance = false ∧
    (EventWriterSqlite.new.Open.state.WriteEvent eventA).state.conn ≠
      (EventWriterSqlite.new.Open.state.WriteEvent eventA2).state.conn :=
  ⟨by decide, by decide, by decide, by decide,
    (sqlite_write_binds_scalars EventWriterSqlite.new.Open.state [] (List.replicate 26 .null)
      eventA eventA2 rfl rfl rfl rfl (by decide)).2.2.2.1 (by decide) (by decide) (by decide)⟩

/-- C2: evaluation at a failing input.  On a chain of one record whose branch
H3_ProbK holds the value 17, the first `NextEvent` returns true and leaves
`kaon_candidates[2].h_prob_k` at the value the event had before the call
(3003), not 17; the value of H3_ProbK is found in `kaon_candidates[1].h_prob_k`
instead. -/
theorem root_reader_h3_prob_k_not_bound :
    (exampleEntry 0 0 0).dval .H3_ProbK = ⟨17⟩ ∧
    ((EventReaderRoot.Open .new [exampleEntry 0 0 0]).NextEvent eventB).ret = true ∧
    (((EventReaderRoot.Open .new [exampleEntry 0 0 0]).NextEvent eventB).event.kaon_candidates
      2).h_prob_k = ⟨3003⟩ ∧
    (eventB.kaon_candidates 2).h_prob_k = ⟨3003⟩ ∧
    (((EventReaderRoot.Open .new [exampleEntry 0 0 0]).NextEvent eventB).event.kaon_candidates
      1).h_prob_k = ⟨17⟩ := by
  decide

/-- Setting an address leaves the entries of the chain as they are. -/
theorem SetBranchAddressD_entries (c : TChain) (b : DBranch) (a : DAddr) :
    (c.SetBranchAddressD b a).entries = c.entries := rfl

/-- Setting an address leaves the entries of the chain as they are. -/
theorem SetBranchAddressI_entries (c : TChain) (b : IBranch) (a : IAddr) :
    (c.SetBranchAddressI b a).entries = c.entries := rfl

/-- Attaching the branches leaves the entries of the chain as they are. -/
theorem attach_entries (c : TChain) : (AttachBranches2Event c).entries = c.entries := by
  simp only [AttachBranches2Event, SetBranchAddressD_entries, SetBranchAddressI_entries]

/-- The first call of `NextEvent`: the branches are attached and the counters set. -/
theorem root_NextEvent_first (r : EventReaderRoot) (c : TChain) (e : Event)
    (hc : r.root_chain_ = some c) (h : r.num_events_ < 0) :
    r.NextEvent e =
      if c.entries.length = 0 then
        ⟨false, false, ⟨some (AttachBranches2Event c), c.entries.length, 0⟩, e⟩
      else
        ⟨false, true, ⟨some (AttachBranches2Event c), c.entries.length, 1⟩,
          (AttachBranches2Event c).GetEntry 0 e⟩ := by
  unfold EventReaderRoot.NextEvent
  simp only [hc, h, decide_True, if_true, TChain.GetEntries, attach_entries]
  by_cases h0 : c.entries.length = 0
  · simp [h0]
  · have : ¬ ((0 : Int) ≥ (c.entries.length : Int)) := by omega
    simp [h0, this]

/-- A call of `NextEvent` on an initialised reader. -/
theorem root_NextEvent_later (r : EventReaderRoot) (c : TChain) (e : Event)
    (hc : r.root_chain_ = some c) (h : 0 ≤ r.num_events_) :
    r.NextEvent e =
      if r.pos_events_ ≥ r.num_events_ then
        ⟨false, false, ⟨some c, r.num_events_, r.pos_events_⟩, e⟩
      else
        ⟨false, true, ⟨some c, r.num_events_, r.pos_events_ + 1⟩, c.GetEntry r.pos_events_ e⟩ := by
  unfold EventReaderRoot.NextEvent
  have hn : ¬ (r.num_events_ < 0) := by omega
  simp only [hc, hn, decide_False, Bool.false_eq_true, if_false]

/-- The state of a tree reader over `N` records after `k` calls of `NextEvent`. -/
theorem root_reader_step (N k : Nat) (r : EventReaderRoot) (e : Event)
    (h : ∃ c, r.root_chain_ = some c ∧ c.entries.length = N ∧
      (if k = 0 then r.num_events_ < 0
       else r.num_events_ = N ∧ r.pos_events_ = (min k N : Nat))) :
    (r.NextEvent e).aborted = false ∧ ((r.NextEvent e).ret = true ↔ k < N) ∧
    ∃ c, (r.NextEvent e).reader.root_chain_ = some c ∧ c.entries.length = N ∧
      (r.NextEvent e).reader.num_events_ = N ∧
      (r.NextEvent e).reader.pos_events_ = (min (k + 1) N : Nat) := by
  obtain ⟨c, hc, hN, hk⟩ := h
  by_cases k0 : k = 0
  · subst k0
    simp only [if_true] at hk
    rw [root_NextEvent_first r c e hc hk, hN]
    by_cases h0 : N = 0
    · subst h0
      rw [if_pos rfl]
      exact ⟨rfl, by simp, _, rfl, by rw [attach_entries]; exact hN, rfl, rfl⟩
    · rw [if_neg h0]
      refine ⟨rfl, by simp; omega, _, rfl, by rw [attach_entries]; exact hN, rfl, ?_⟩
      show (1 : Int) = _
      omega
  · simp only [k0, if_false] at hk
    obtain ⟨hnum, hpos⟩ := hk
    rw [root_NextEvent_later r c e hc (by omega), hnum, hpos]
    by_cases hlt : k < N
    · have : ¬ (((min k N : Nat) : Int) ≥ (N : Int)) := by omega
      rw [if_neg this]
      refine ⟨rfl, by simpa using hlt, _, rfl, hN, rfl, ?_⟩
      show ((min k N : Nat) : Int) + 1 = _
      omega
    · have : (((min k N : Nat) : Int) ≥ (N : Int)) := by omega
      rw [if_pos this]
      refine ⟨rfl, by simpa using hlt, _, rfl, hN, rfl, ?_⟩
      show ((min k N : Nat) : Int) = _
      omega

/-- The counters of a tree reader after `k` calls of `NextEvent`. -/
theorem root_reader_afterCalls (r0 : EventReaderRoot) (hfresh : r0.num_events_ < 0)
    (entries : List TreeEntry) (e : Event) (k : Nat) :
    ∃ c, (EventReaderRoot.afterCalls (r0.Open entries) e k).1.root_chain_ = some c ∧
      c.entries.length = entries.length ∧
      (if k = 0 then (EventReaderRoot.afterCalls (r0.Open entries) e k).1.num_events_ < 0
       else
         (EventReaderRoot.afterCalls (r0.Open entries) e k).1.num_events_ = entries.length ∧
         (EventReaderRoot.afterCalls (r0.Open entries) e k).1.pos_events_ =
           (min k entries.length : Nat)) := by
  induction k with
  | zero =>
    refine ⟨TChain.new entries, rfl, rfl, ?_⟩
    rw [if_pos rfl]
    exact hfresh
  | succ k ih =>
    obtain ⟨_, _, c, h1, h2, h3, h4⟩ := root_reader_step entries.length k _
      (EventReaderRoot.afterCalls (r0.Open entries) e k).2 ih
    refine ⟨c, h1, h2, ?_⟩
    rw [if_neg (Nat.succ_ne_zero k)]
    exact ⟨h3, h4⟩

/-- C4: on a freshly opened tree reader (its `num_events_` still negative) over an
input of N records, no call of `NextEvent` fails, and call number k + 1 returns
true if and only if k + 1 <= N.  So the calls 1..N return true, call N + 1
returns false, and so does every later call. -/
theorem root_reader_exhaustion (r0 : EventReaderRoot) (entries : List TreeEntry)
    (event : Event) (k : Nat) (hfresh : r0.num_events_ < 0) :
    ((r0.Open entries).call event k).aborted = false ∧
    (((r0.Open entries).call event k).ret = true ↔ k + 1 ≤ entries.length) := by
  have h := root_reader_step entries.length k _
    (EventReaderRoot.afterCalls (r0.Open entries) event k).2
    (root_reader_afterCalls r0 hfresh entries event k)
  exact ⟨h.1, h.2.1⟩

/-- Witness for C4: a new reader opened on three records; its fourth call returns
false. -/
theorem root_reader_exhaustion_witness :
    EventReaderRoot.new.num_events_ < 0 ∧
    ¬ (((EventReaderRoot.new.Open
      [exampleEntry 0 0 0, exampleEntry 0 1 0, exampleEntry 0 0 0]).call eventB 3).ret = true) :=
  ⟨by decide, fun h => absurd
    ((root_reader_exhaustion EventReaderRoot.new
      [exampleEntry 0 0 0, exampleEntry 0 1 0, exampleEntry 0 0 0] eventB 3 (by decide)).2.1 h)
    (by decide)⟩

/-- C5: for every format, `EventReader::Create` returns a reader exactly for kRoot
(the tree reader) and kSqlite (the relational reader), and
`EventWriter::Create` returns a writer exactly for kH5Row, kH5Column and
kSqlite (the row-binary, columnar and relational writer).  The object returned
is the newly constructed one, on which no `Open` was called; each variant comes
from one format only; for every other format `Create` aborts and returns no
object. -/
theorem create_dispatch (format : FileFormats) :
    (EventReader.Create format = ⟨false, some (.Root EventReaderRoot.new)⟩ ↔ format = .kRoot) ∧
    (EventReader.Create format = ⟨false, some (.Sqlite EventReaderSqlite.new)⟩ ↔
      format = .kSqlite) ∧
    (EventReader.Create format = ⟨true, none⟩ ↔ ¬ (format = .kRoot ∨ format = .kSqlite)) ∧
    ((∃ r, (EventReader.Create format).state = some (.Root r)) ↔ format = .kRoot) ∧
    ((∃ r, (EventReader.Create format).state = some (.Sqlite r)) ↔ format = .kSqlite) ∧
    ((EventReader.Create format).aborted = false ↔ format = .kRoot ∨ format = .kSqlite) ∧
    (EventWriter.Create format = ⟨false, some (.H5Row EventWriterH5Row.new)⟩ ↔
      format = .kH5Row) ∧
    (EventWriter.Create format = ⟨false, some (.H5Column EventWriterH5Column.new)⟩ ↔
      format = .kH5Column) ∧
    (EventWriter.Create format = ⟨false, some (.Sqlite EventWriterSqlite.new)⟩ ↔
      format = .kSqlite) ∧
    (EventWriter.Create format = ⟨true, none⟩ ↔
      ¬ (format = .kH5Row ∨ format = .kH5Column ∨ format = .kSqlite)) ∧
    ((∃ w, (EventWriter.Create format).state = some (.H5Row w)) ↔ format = .kH5Row) ∧
    ((∃ w, (EventWriter.Create format).state = some (.H5Column w)) ↔ format = .kH5Column) ∧
    ((∃ w, (EventWriter.Create format).state = some (.Sqlite w)) ↔ format = .kSqlite) ∧
    ((EventWriter.Create format).aborted = false ↔
      format = .kH5Row ∨ format = .kH5Column ∨ format = .kSqlite) := by
  cases format <;> simp [EventReader.Create, EventWriter.Create]

/-- C6: on a writer opened with the capacity of 8556118 rows, a `WriteEvent` call
made when the write offset is 8556118 or more ends in a failed assertion, and
leaves every row of the dataset, and the offset, as they were. -/
theorem h5row_write_beyond_capacity (w : EventWriterH5Row) (event : Event) (uninit : DataSet)
    (hopen : w.opened = true) (hdim : w.dim = 8556118) (hfull : 8556118 ≤ w.nevent_) :
    (w.WriteEvent event uninit).aborted = true ∧
    (∀ k, (w.WriteEvent event uninit).state.rows k = w.rows k) ∧
    (w.WriteEvent event uninit).state.nevent_ = w.nevent_ := by
  have h : ¬ (w.nevent_ < 8556118) := by omega
  simp [EventWriterH5Row.WriteEvent, H5Sselect_hyperslab, H5Dwrite, hopen, hdim, h]

/-- Witness for C6: an opened writer whose offset has reached the capacity. -/
theorem h5row_write_beyond_capacity_witness :
    ({ EventWriterH5Row.new.Open.state with nevent_ := 8556118 } : EventWriterH5Row).opened =
      true ∧
    ({ EventWriterH5Row.new.Open.state with nevent_ := 8556118 } : EventWriterH5Row).dim =
      8556118 ∧
    (({ EventWriterH5Row.new.Open.state with nevent_ := 8556118 } : EventWriterH5Row).WriteEvent
      eventA zeroDataSet).aborted = true :=
  ⟨rfl, rfl,
    (h5row_write_beyond_capacity { EventWriterH5Row.new.Open.state with nevent_ := 8556118 }
      eventA zeroDataSet rfl rfl (by decide)).1⟩

/-- A `WriteEvent` below the capacity writes its record at the offset and advances
the offset by one. -/
theorem h5row_WriteEvent_ok (w : EventWriterH5Row) (event : Event) (uninit : DataSet)
    (hopen : w.opened = true) (hroom : w.nevent_ < w.dim) (hdim : w.dim < 2 ^ 64) :
    (w.WriteEvent event uninit).aborted = false ∧
    (w.WriteEvent event uninit).state.opened = true ∧
    (w.WriteEvent event uninit).state.dim = w.dim ∧
    (w.WriteEvent event uninit).state.nevent_ = w.nevent_ + 1 ∧
    ∀ k, (w.WriteEvent event uninit).state.rows k =
      if k = w.nevent_ then
        some { uninit with b_flight_distance := event.b_flight_distance,
                           b_vertex_chi2 := event.b_vertex_chi2 }
      else w.rows k := by
  have h : (w.nevent_ + 1) % 2 ^ 64 = w.nevent_ + 1 := Nat.mod_eq_of_lt (by omega)
  simp only [EventWriterH5Row.WriteEvent, H5Sselect_hyperslab, H5Dwrite, hopen, hroom, h, if_true,
    lt_self_iff_false, if_false]
  simp

/-- Writing a sequence that fits below the capacity: offset and rows afterwards. -/
theorem h5row_writeAll (l : List (Event × DataSet)) (w : EventWriterH5Row)
    (hopen : w.opened = true) (hroom : w.nevent_ + l.length ≤ w.dim) (hdim : w.dim < 2 ^ 64) :
    (w.writeAll l).aborted = false ∧
    (w.writeAll l).state.opened = true ∧
    (w.writeAll l).state.dim = w.dim ∧
    (w.writeAll l).state.nevent_ = w.nevent_ + l.length ∧
    (∀ k, k < w.nevent_ → (w.writeAll l).state.rows k = w.rows k) ∧
    ∀ k (hk : k < l.length), (w.writeAll l).state.rows (w.nevent_ + k) =
      some { (l.get ⟨k, hk⟩).2 with
        b_flight_distance := (l.get ⟨k, hk⟩).1.b_flight_distance,
        b_vertex_chi2 := (l.get ⟨k, hk⟩).1.b_vertex_chi2 } := by
  induction l generalizing w with
  | nil => exact ⟨rfl, hopen, rfl, rfl, fun _ _ => rfl, fun k hk => absurd hk (Nat.not_lt_zero k)⟩
  | cons p rest ih =>
    obtain ⟨e, u⟩ := p
    simp only [List.length_cons] at hroom
    obtain ⟨a1, a2, a3, a4, a5⟩ := h5row_WriteEvent_ok w e u hopen (by omega) hdim
    obtain ⟨h1, h2, h3, h4, h5, h6⟩ := ih (w.WriteEvent e u).state a2 (by rw [a4, a3]; omega)
      (by rw [a3]; exact hdim)
    have hstep : w.writeAll ((e, u) :: rest) = (w.WriteEvent e u).state.writeAll rest := by
      simp only [EventWriterH5Row.writeAll, a1, Bool.false_eq_true, if_false]
    rw [hstep]
    refine ⟨h1, h2, by rw [h3, a3], by rw [h4, a4, List.length_cons]; omega, ?_, ?_⟩
    · intro k hk
      rw [h5 k (by rw [a4]; omega), a5 k, if_neg (Nat.ne_of_lt hk)]
    · intro k hk
      cases k with
      | zero =>
        rw [Nat.add_zero, h5 _ (by rw [a4]; omega), a5, if_pos rfl]
        rfl
      | succ k =>
        have := h6 k (by simpa using hk)
        rw [a4] at this
        rw [show w.nevent_ + (k + 1) = w.nevent_ + 1 + k by omega, this]
        rfl

/-- C8: on a freshly opened row-binary writer whose write offset is 0, writing any
sequence of n events, n not above the capacity 8556118, makes no call fail and
leaves the write offset at n; for every k < n, row k of the dataset is the record
whose `b_flight_distance` and `b_vertex_chi2` are those of event number k + 1,
and whose 24 other members are what the uninitialised local held in that call:
no candidate member of the event reaches the record. -/
theorem h5row_write_sequence (w0 : EventWriterH5Row) (l : List (Event × DataSet))
    (hzero : w0.nevent_ = 0) (hcap : l.length ≤ 8556118) :
    (w0.Open.state.writeAll l).aborted = false ∧
    (w0.Open.state.writeAll l).state.nevent_ = l.length ∧
    ∀ k (hk : k < l.length), (w0.Open.state.writeAll l).state.rows k =
      some { (l.get ⟨k, hk⟩).2 with
        b_flight_distance := (l.get ⟨k, hk⟩).1.b_flight_distance,
        b_vertex_chi2 := (l.get ⟨k, hk⟩).1.b_vertex_chi2 } := by
  have hn : w0.Open.state.nevent_ = 0 := hzero
  have hd : w0.Open.state.dim = 8556118 := rfl
  obtain ⟨h1, _, _, h4, _, h6⟩ := h5row_writeAll l w0.Open.state rfl
    (by rw [hn, hd]; omega) (by rw [hd]; decide)
  refine ⟨h1, by rw [h4, hn]; omega, ?_⟩
  intro k hk
  have := h6 k hk
  rwa [hn, Nat.zero_add] at this

/-- Witness for C8: two events written by a new writer. -/
theorem h5row_write_sequence_witness :
    EventWriterH5Row.new.nevent_ = 0 ∧
    [(eventA, zeroDataSet), (eventB, zeroDataSet)].length ≤ 8556118 ∧
    (EventWriterH5Row.new.Open.state.writeAll
      [(eventA, zeroDataSet), (eventB, zeroDataSet)]).state.nevent_ = 2 :=
  ⟨rfl, by decide,
    (h5row_write_sequence EventWriterH5Row.new [(eventA, zeroDataSet), (eventB, zeroDataSet)]
      rfl (by decide)).2.1⟩

/-- The two counters after one pass through the loop body of the scan. -/
theorem scanStep_counts (fp : FloatOps) (s : ScanState) (t : TreeEntry) :
    (scanStep fp s t).nread = (s.nread + 1) % 2 ^ 32 ∧
    (scanStep fp s t).nskipped =
      if t.ival .H1_isMuon ≠ 0 ∨ t.ival .H2_isMuon ≠ 0 ∨ t.ival .H3_isMuon ≠ 0 then
        (s.nskipped + 1) % 2 ^ 32
      else s.nskipped := by
  unfold scanStep
  split_ifs <;> exact ⟨rfl, rfl⟩

/-- The two counters after the scan of a list of records. -/
theorem scan_fold_counts (fp : FloatOps) (l : List TreeEntry) (s : ScanState)
    (hr : s.nread < 2 ^ 32) (hs : s.nskipped < 2 ^ 32) :
    (l.foldl (scanStep fp) s).nread = (s.nread + l.length) % 2 ^ 32 ∧
    (l.foldl (scanStep fp) s).nskipped =
      (s.nskipped + l.countP TreeEntry.anyMuon) % 2 ^ 32 := by
  induction l generalizing s with
  | nil =>
    exact ⟨by rw [List.length_nil, Nat.add_zero, Nat.mod_eq_of_lt hr]; rfl,
      by rw [List.countP_nil, Nat.add_zero, Nat.mod_eq_of_lt hs]; rfl⟩
  | cons t rest ih =>
    obtain ⟨h1, h2⟩ := scanStep_counts fp s t
    have hr' : (scanStep fp s t).nread < 2 ^ 32 := by rw [h1]; exact Nat.mod_lt _ (by decide)
    have hs' : (scanStep fp s t).nskipped < 2 ^ 32 := by
      rw [h2]; split_ifs
      · exact Nat.mod_lt _ (by decide)
      · exact hs
    obtain ⟨i1, i2⟩ := ih (scanStep fp s t) hr' hs'
    constructor
    · rw [List.foldl_cons, i1, h1, List.length_cons]
      omega
    · rw [List.foldl_cons, i2, h2]
      by_cases hm : t.ival .H1_isMuon ≠ 0 ∨ t.ival .H2_isMuon ≠ 0 ∨ t.ival .H3_isMuon ≠ 0
      · have ht : t.anyMuon = true := decide_eq_true hm
        rw [if_pos hm, List.countP_cons_of_pos _ _ ht]
        omega
      · have ht : ¬ (t.anyMuon = true) := fun h => hm (of_decide_eq_true h)
        rw [if_neg hm, List.countP_cons_of_neg _ _ ht]

/-- C9: for every input of N < 2 ^ 32 records, `AnalyzeRootOptimized` returns 0 and
its last line reports N records read and, as skipped, the number of records
in which at least one of H1_isMuon, H2_isMuon, H3_isMuon is non-zero, a number
that is at most N.  One record with only H2_isMuon set is reported as 1 read,
1 skipped. -/
theorem scan_counts (fp : FloatOps) (entries : List TreeEntry) (hN : entries.length < 2 ^ 32) :
    (AnalyzeRootOptimized fp entries).ret = 0 ∧
    (∃ dummy, (AnalyzeRootOptimized fp entries).printed.getLast? =
      some (.optimized entries.length
        (entries.countP TreeEntry.anyMuon) dummy)) ∧
    entries.countP TreeEntry.anyMuon ≤ entries.length ∧
    ∀ t : TreeEntry, t.ival .H1_isMuon = 0 → t.ival .H2_isMuon ≠ 0 → t.ival .H3_isMuon = 0 →
      (AnalyzeRootOptimized fp [t]).printed = [.optimized 1 1 Double.zero] := by
  obtain ⟨h1, h2⟩ := scan_fold_counts fp entries ⟨0, 0, Double.zero, []⟩ (by decide) (by decide)
  have hle := List.countP_le_length TreeEntry.anyMuon (l := entries)
  refine ⟨rfl, ⟨(entries.foldl (scanStep fp) ⟨0, 0, Double.zero, []⟩).dummy, ?_⟩, hle, ?_⟩
  · simp only [AnalyzeRootOptimized, List.getLast?_append, List.getLast?_singleton, h1, h2,
      Nat.zero_add]
    rw [Nat.mod_eq_of_lt hN, Nat.mod_eq_of_lt (lt_of_le_of_lt hle hN)]
    rfl
  · intro t a b c
    simp [AnalyzeRootOptimized, scanStep, a, b, c]

/-- Witness for C9: three records, the second with H2_isMuon set. -/
theorem scan_counts_witness :
    [exampleEntry 0 0 0, exampleEntry 0 1 0, exampleEntry 0 0 0].length < 2 ^ 32 ∧
    (AnalyzeRootOptimized exampleOps
      [exampleEntry 0 0 0, exampleEntry 0 1 0, exampleEntry 0 0 0]).ret = 0 :=
  ⟨by decide,
    (scan_counts exampleOps [exampleEntry 0 0 0, exampleEntry 0 1 0, exampleEntry 0 0 0]
      (by decide)).1⟩

/-- The state after `k + 1` calls is the state `k` calls after the first call. -/
theorem afterCalls_front (r : EventReaderRoot) (e : Event) (k : Nat) :
    r.afterCalls e (k + 1) = (r.NextEvent e).reader.afterCalls (r.NextEvent e).event k := by
  induction k with
  | zero => rfl
  | succ k ih =>
    show (((r.afterCalls e (k + 1)).1.NextEvent (r.afterCalls e (k + 1)).2).reader,
      ((r.afterCalls e (k + 1)).1.NextEvent (r.afterCalls e (k + 1)).2).event) = _
    rw [ih]
    rfl

/-- The events yielded in `n + 1` calls: the first, then those of the next `n`. -/
theorem yields_succ (r : EventReaderRoot) (e : Event) (n : Nat) :
    r.yields e (n + 1) =
      (r.NextEvent e).event :: (r.NextEvent e).reader.yields (r.NextEvent e).event n := by
  unfold EventReaderRoot.yields
  rw [List.range_succ_eq_map, List.map_cons, List.map_map]
  congr 1
  apply List.map_congr_left
  intro k _
  simp only [Function.comp_apply]
  rw [afterCalls_front]

/-- The result of call `k + 1` of `NextEvent` on a reader over chain `c`. -/
theorem root_step_precise (c : TChain) (k : Nat) (r : EventReaderRoot) (e : Event)
    (hk : k ≤ c.entries.length)
    (hinv : (k = 0 ∧ r.root_chain_ = some c ∧ r.num_events_ < 0) ∨
      (0 < k ∧ r = ⟨some (AttachBranches2Event c), c.entries.length, (k : Nat)⟩)) :
    r.NextEvent e =
      if k < c.entries.length then
        ⟨false, true, ⟨some (AttachBranches2Event c), c.entries.length, ((k + 1 : Nat) : Int)⟩,
          (AttachBranches2Event c).GetEntry (k : Nat) e⟩
      else
        ⟨false, false, ⟨some (AttachBranches2Event c), c.entries.length, (k : Nat)⟩, e⟩ := by
  rcases hinv with ⟨k0, hc, hneg⟩ | ⟨kpos, hr⟩
  · subst k0
    rw [root_NextEvent_first r c e hc hneg]
    by_cases h0 : c.entries.length = 0
    · rw [if_pos h0, if_neg (by omega)]
      rfl
    · rw [if_neg h0, if_pos (by omega)]
      rfl
  · subst hr
    rw [root_NextEvent_later _ (AttachBranches2Event c) e rfl (by simp)]
    by_cases hlt : k < c.entries.length
    · rw [if_pos hlt, if_neg (by simp only []; omega)]
      simp only [Nat.cast_add, Nat.cast_one]
    · rw [if_neg hlt, if_pos (by simp only []; omega)]

/-- The loop of `main` with a tree reader `k` calls into its chain and a writer that
accepts every event (`P` is kept by `WriteEvent`): it ends without abort, having
called `WriteEvent` on each event the reader yields. -/
theorem mainLoop_convert (uninit : Nat → DataSet) (c : TChain)
    (P : List Event → EventWriter → Prop)
    (hstep : ∀ es w e u, es.length < c.entries.length → P es w →
      (EventWriter.WriteEvent w e u).aborted = false ∧
        P (es ++ [e]) (EventWriter.WriteEvent w e u).state) :
    ∀ (n k fuel : Nat) (r : EventReaderRoot) (w : EventWriter) (e : Event) (i : Nat)
      (calls : List Call) (printed : List Line) (es : List Event),
      k + n = c.entries.length → n < fuel → es.length = k →
      ((k = 0 ∧ r.root_chain_ = some c ∧ r.num_events_ < 0) ∨
        (0 < k ∧ r = ⟨some (AttachBranches2Event c), c.entries.length, (k : Nat)⟩)) →
      P es w → i < 2 ^ 32 →
      ∃ d', mainLoop uninit fuel ⟨.Root r, some w, e, i, calls, printed⟩ = some ⟨false, d'⟩ ∧
        d'.calls = calls ++ (r.yields e n).map Call.WriteEvent ∧
        d'.i_events = (i + n) % 2 ^ 32 ∧
        ∃ w', d'.writer = some w' ∧ P (es ++ r.yields e n) w' := by
  intro n
  induction n with
  | zero =>
    intro k fuel r w e i calls printed es hkn hfuel hes hinv hP hi
    obtain ⟨fuel, rfl⟩ : ∃ f, fuel = f + 1 := ⟨fuel - 1, by omega⟩
    have hstepR := root_step_precise c k r e (by omega) hinv
    rw [if_neg (by omega)] at hstepR
    refine ⟨⟨.Root ⟨some (AttachBranches2Event c), c.entries.length, (k : Nat)⟩, some w, e, i,
      calls, printed⟩, ?_, ?_, ?_, w, ?_, ?_⟩
    · simp only [mainLoop, EventReader.NextEvent, hstepR, Bool.false_eq_true, if_false,
        Bool.not_false, if_true]
    · simp [EventReaderRoot.yields]
    · simp only [Nat.add_zero]
      exact (Nat.mod_eq_of_lt hi).symm
    · rfl
    · simpa [EventReaderRoot.yields] using hP
  | succ n ih =>
    intro k fuel r w e i calls printed es hkn hfuel hes hinv hP hi
    obtain ⟨fuel, rfl⟩ : ∃ f, fuel = f + 1 := ⟨fuel - 1, by omega⟩
    have hstepR := root_step_precise c k r e (by omega) hinv
    rw [if_pos (by omega)] at hstepR
    obtain ⟨hw1, hw2⟩ := hstep es w ((AttachBranches2Event c).GetEntry (k : Nat) e)
      (uninit calls.length) (by omega) hP
    have hy := yields_succ r e n
    rw [hstepR] at hy
    simp only [] at hy
    obtain ⟨d', hd1, hd2, hd3, w', hd4, hd5⟩ := ih (k + 1) fuel
      ⟨some (AttachBranches2Event c), c.entries.length, ((k + 1 : Nat) : Int)⟩
      (EventWriter.WriteEvent w ((AttachBranches2Event c).GetEntry (k : Nat) e)
        (uninit calls.length)).state
      ((AttachBranches2Event c).GetEntry (k : Nat) e) ((i + 1) % 2 ^ 32)
      (calls ++ [.WriteEvent ((AttachBranches2Event c).GetEntry (k : Nat) e)])
      (if (i + 1) % 2 ^ 32 % 100000 = 0 then printed ++ [.processed ((i + 1) % 2 ^ 32 / 1000)]
        else printed)
      (es ++ [(AttachBranches2Event c).GetEntry (k : Nat) e])
      (by omega) (by omega) (by simp [hes]) (Or.inr ⟨by omega, rfl⟩) hw2
      (Nat.mod_lt _ (by decide))
    refine ⟨d', ?_, ?_, ?_, w', hd4, ?_⟩
    · rw [← hd1]
      simp only [mainLoop, EventReader.NextEvent, hstepR, Bool.false_eq_true, if_false,
        Bool.not_true, hw1]
    · rw [hd2, hy]
      simp
    · rw [hd3]
      omega
    · rw [hy]
      simpa using hd5

/-- The tree reader after `k` calls, for `k` up to the number of records. -/
theorem afterCalls_inv (c : TChain) (r : EventReaderRoot) (e : Event)
    (hc : r.root_chain_ = some c) (hneg : r.num_events_ < 0) (k : Nat)
    (hk : k ≤ c.entries.length) :
    (k = 0 ∧ (r.afterCalls e k).1.root_chain_ = some c ∧ (r.afterCalls e k).1.num_events_ < 0) ∨
      (0 < k ∧ (r.afterCalls e k).1 =
        ⟨some (AttachBranches2Event c), c.entries.length, (k : Nat)⟩) := by
  induction k with
  | zero => exact Or.inl ⟨rfl, hc, hneg⟩
  | succ k ih =>
    have h := root_step_precise c k (r.afterCalls e k).1 (r.afterCalls e k).2 (by omega)
      (ih (by omega))
    rw [if_pos (by omega)] at h
    refine Or.inr ⟨by omega, ?_⟩
    show ((r.afterCalls e k).1.NextEvent (r.afterCalls e k).2).reader = _
    rw [h]

/-- The entry read by `GetEntry k` is record `k` of the chain. -/
theorem GetEntry_get (c : TChain) (k : Nat) (hk : k < c.entries.length) (e : Event) :
    (AttachBranches2Event c).GetEntry (k : Nat) e =
      (AttachBranches2Event c).readEntry (c.entries.get ⟨k, hk⟩) e := by
  have hneg : ¬ ((k : Int) < 0) := by omega
  simp only [TChain.GetEntry, hneg, if_false, attach_entries, Int.toNat_ofNat,
    List.get?_eq_get hk]

/-- Call `k + 1` leaves the event that reading record `k` makes of the event before. -/
theorem afterCalls_reads (c : TChain) (r : EventReaderRoot) (e : Event)
    (hc : r.root_chain_ = some c) (hneg : r.num_events_ < 0) (k : Nat)
    (hk : k < c.entries.length) :
    (r.afterCalls e (k + 1)).2 =
      (AttachBranches2Event c).readEntry (c.entries.get ⟨k, hk⟩) (r.afterCalls e k).2 := by
  have h := root_step_precise c k (r.afterCalls e k).1 (r.afterCalls e k).2 (by omega)
    (afterCalls_inv c r e hc hneg k (by omega))
  rw [if_pos hk] at h
  show ((r.afterCalls e k).1.NextEvent (r.afterCalls e k).2).event = _
  rw [h, ← GetEntry_get c k hk]

/-- An opened relational writer holding the rows of `es` accepts one more event. -/
theorem sqlite_writer_step (N : Nat) (es : List Event) (w : EventWriter) (e : Event)
    (u : DataSet) (_h : es.length < N)
    (hP : ∃ ws, w = .Sqlite ws ∧ ws.conn = some (es.map eventRow) ∧ ws.db_ = true ∧
      ws.transaction = true ∧ ∃ ps, ws.sql_insert_ = some ps ∧ ps.length = 26) :
    (EventWriter.WriteEvent w e u).aborted = false ∧
    ∃ ws, (EventWriter.WriteEvent w e u).state = .Sqlite ws ∧
      ws.conn = some ((es ++ [e]).map eventRow) ∧ ws.db_ = true ∧
      ws.transaction = true ∧ ∃ ps, ws.sql_insert_ = some ps ∧ ps.length = 26 := by
  obtain ⟨ws, rfl, hdb, hptr, htx, ps, hps, hlen⟩ := hP
  have h := WriteEvent_opened ws _ ps hdb htx hps hlen e
  have hw : EventWriter.WriteEvent (.Sqlite ws) e u =
      ⟨(ws.WriteEvent e).aborted, .Sqlite (ws.WriteEvent e).state⟩ := rfl
  rw [hw, h]
  exact ⟨rfl, _, rfl, by simp, hptr, htx, eventParams e, rfl, rfl⟩

/-- An opened row-binary writer below its capacity accepts one more event. -/
theorem h5row_writer_step (N : Nat) (hN : N ≤ 8556118) (es : List Event) (w : EventWriter)
    (e : Event) (u : DataSet) (h : es.length < N)
    (hP : ∃ wh, w = .H5Row wh ∧ wh.opened = true ∧ wh.dim = 8556118 ∧
      wh.nevent_ = es.length) :
    (EventWriter.WriteEvent w e u).aborted = false ∧
    ∃ wh, (EventWriter.WriteEvent w e u).state = .H5Row wh ∧ wh.opened = true ∧
      wh.dim = 8556118 ∧ wh.nevent_ = (es ++ [e]).length := by
  obtain ⟨wh, rfl, hopen, hdim, hn⟩ := hP
  obtain ⟨a1, a2, a3, a4, _⟩ := h5row_WriteEvent_ok wh e u hopen (by omega)
    (by rw [hdim]; decide)
  simp only [EventWriter.WriteEvent]
  exact ⟨a1, _, rfl, a2, by rw [a3, hdim], by rw [a4, hn]; simp⟩

/-- C10 (as stated): counterexample.  In convert mode with a tree input of three
records and the columnar-binary output format, the driver calls `WriteEvent`
once, that call aborts the process, and `Close` is never called. -/
theorem convert_loop_h5column_counterexample :
    (main exampleOps (fun _ => zeroDataSet) 10 false
      ⟨true, .kRoot, [exampleEntry 0 0 0, exampleEntry 0 0 0, exampleEntry 0 0 0], none⟩
      (some .kH5Column) eventB).map
        (fun r => (r.aborted, r.calls.countP Call.isWriteEvent, r.calls.countP Call.isClose)) =
      some (true, 1, 0) := by
  decide

/-- The tree reader that `main` holds when the loop starts in convert mode. -/
theorem prepared_reader (tree : List TreeEntry) :
    (EventReaderRoot.Open .new tree).PrepareForConversion =
      ⟨some (AttachUnusedBranches2Event (TChain.new tree)), -1, -1⟩ := rfl

/-- Attaching the unused branches leaves the entries of the chain as they are. -/
theorem unused_entries (c : TChain) : (AttachUnusedBranches2Event c).entries = c.entries := by
  simp only [AttachUnusedBranches2Event, SetBranchAddressD_entries]

/-- The result of `main` in convert mode, given the outcome of its loop. -/
theorem main_convert_unfold (fp : FloatOps) (uninit : Nat → DataSet) (tree : List TreeEntry)
    (db : Option (List Row)) (output : FileFormats) (event : Event) (fuel : Nat) (w : EventWriter)
    (hroot : output ≠ .kRoot) (hw : (EventWriter.Create output).state = some w)
    (hopen : w.Open.aborted = false) (d : Driver)
    (hloop : mainLoop uninit fuel ⟨.Root ⟨some (AttachUnusedBranches2Event (TChain.new tree)),
      -1, -1⟩, some w.Open.state, event, 0, [.Open], []⟩ = some ⟨false, d⟩)
    (w' : EventWriter) (hd : d.writer = some w') :
    main fp uninit fuel false ⟨true, .kRoot, tree, db⟩ (some output) event =
      some ⟨w'.Close.aborted, 0, d.calls ++ [.Close], d.printed ++ [.finished d.i_events],
        some w'.Close.state⟩ := by
  simp only [main, Bool.false_eq_true, if_false, Bool.not_true, EventReader.Create,
    EventReader.Open, EventReader.PrepareForConversion, prepared_reader, ne_eq,
    not_true_eq_false, hroot, hw, hopen, hloop, hd]

/-- In `n` calls the reader yields `n` events. -/
theorem yields_length (r : EventReaderRoot) (e : Event) (n : Nat) :
    (r.yields e n).length = n := by
  simp [EventReaderRoot.yields]

/-- C10 (amended): in convert mode with a tree input of N records and the relational
output format, or the row-binary output format when N <= 8556118, a run of
`main` with enough fuel for its N + 1 calls of `NextEvent` returns 0 without a
failed assertion; its calls on the writer are `Open`, then `WriteEvent` once
for each event the reader yields, in the reader's order (N calls, the k-th
event being the one left by reading record k), then `Close` once; it never
calls `ProcessEvent`; the last line printed reports N mod 2 ^ 32 events; and
with the relational format the closed store holds the N rows of the yielded
events. -/
theorem convert_loop (fp : FloatOps) (uninit : Nat → DataSet) (tree : List TreeEntry)
    (db : Option (List Row)) (output : FileFormats) (event : Event) (fuel : Nat)
    (hout : output = .kSqlite ∨ (output = .kH5Row ∧ tree.length ≤ 8556118))
    (hfuel : tree.length < fuel) :
    ∃ r, main fp uninit fuel false ⟨true, .kRoot, tree, db⟩ (some output) event = some r ∧
      r.aborted = false ∧ r.ret = 0 ∧
      r.calls = [Call.Open] ++
        ((EventReaderRoot.Open .new tree).PrepareForConversion.yields event tree.length).map
          Call.WriteEvent ++ [Call.Close] ∧
      ((EventReaderRoot.Open .new tree).PrepareForConversion.yields event tree.length).length =
        tree.length ∧
      (∀ k (hk : k < tree.length),
        ((EventReaderRoot.Open .new tree).PrepareForConversion.afterCalls event (k + 1)).2 =
          (AttachBranches2Event (AttachUnusedBranches2Event (TChain.new tree))).readEntry
            (tree.get ⟨k, hk⟩)
            ((EventReaderRoot.Open .new tree).PrepareForConversion.afterCalls event k).2) ∧
      r.printed.getLast? = some (.finished (tree.length % 2 ^ 32)) ∧
      (output = .kSqlite → ∃ w, r.writer = some (.Sqlite w) ∧
        w.file = some (((EventReaderRoot.Open .new tree).PrepareForConversion.yields event
          tree.length).map eventRow)) := by
  have hent : (AttachUnusedBranches2Event (TChain.new tree)).entries = tree := unused_entries _
  have hreads : ∀ k (hk : k < tree.length),
      ((EventReaderRoot.Open .new tree).PrepareForConversion.afterCalls event (k + 1)).2 =
        (AttachBranches2Event (AttachUnusedBranches2Event (TChain.new tree))).readEntry
          (tree.get ⟨k, hk⟩)
          ((EventReaderRoot.Open .new tree).PrepareForConversion.afterCalls event k).2 := by
    intro k hk
    have h := afterCalls_reads (AttachUnusedBranches2Event (TChain.new tree))
      (EventReaderRoot.Open .new tree).PrepareForConversion event rfl
      (show (-1 : Int) < 0 by decide) k
      (by rw [hent]; exact hk)
    rw [h]
    congr 1
  rw [prepared_reader] at hreads ⊢
  rcases hout with rfl | ⟨rfl, hcap⟩
  · obtain ⟨d, hd1, hd2, hd3, w', hd4, ws, rfl, hdb, hptr, htx, _⟩ :=
      mainLoop_convert uninit (AttachUnusedBranches2Event (TChain.new tree))
        (fun es w => ∃ ws, w = .Sqlite ws ∧ ws.conn = some (es.map eventRow) ∧
          ws.db_ = true ∧ ws.transaction = true ∧
          ∃ ps, ws.sql_insert_ = some ps ∧ ps.length = 26)
        (fun es w e u h hP => by
          obtain ⟨a, ws, b, c⟩ := sqlite_writer_step _ es w e u h hP
          exact ⟨a, ws, b, c⟩)
        tree.length 0 fuel ⟨some (AttachUnusedBranches2Event (TChain.new tree)), -1, -1⟩
        (EventWriter.Open (.Sqlite EventWriterSqlite.new)).state event 0 [.Open] [] []
        (by rw [hent]; omega) hfuel rfl (Or.inl ⟨rfl, rfl, show (-1 : Int) < 0 by decide⟩)
        ⟨EventWriterSqlite.new.Open.state, rfl, rfl, rfl, rfl, _, rfl, rfl⟩ (by decide)
    refine ⟨_, main_convert_unfold fp uninit tree db .kSqlite event fuel
      (.Sqlite EventWriterSqlite.new) (by decide) rfl rfl d hd1 _ hd4, ?_, rfl, ?_,
      yields_length _ _ _, hreads, ?_, ?_⟩
    · simp [EventWriter.Close, EventWriterSqlite.Close, hptr, htx]
    · simp only [hd2, List.append_assoc]
    · simp only [List.getLast?_append, List.getLast?_singleton, hd3, Nat.zero_add]
      rfl
    · intro _
      refine ⟨_, rfl, ?_⟩
      simp [EventWriterSqlite.Close, hdb, hptr, htx]
  · obtain ⟨d, hd1, hd2, hd3, w', hd4, wh, rfl, _, _, _⟩ :=
      mainLoop_convert uninit (AttachUnusedBranches2Event (TChain.new tree))
        (fun es w => ∃ wh, w = .H5Row wh ∧ wh.opened = true ∧ wh.dim = 8556118 ∧
          wh.nevent_ = es.length)
        (fun es w e u h hP =>
          h5row_writer_step tree.length hcap es w e u (by rw [hent] at h; exact h) hP)
        tree.length 0 fuel ⟨some (AttachUnusedBranches2Event (TChain.new tree)), -1, -1⟩
        (EventWriter.Open (.H5Row EventWriterH5Row.new)).state event 0 [.Open] [] []
        (by rw [hent]; omega) hfuel rfl (Or.inl ⟨rfl, rfl, show (-1 : Int) < 0 by decide⟩)
        ⟨EventWriterH5Row.new.Open.state, rfl, rfl, rfl, rfl⟩ (by decide)
    refine ⟨_, main_convert_unfold fp uninit tree db .kH5Row event fuel
      (.H5Row EventWriterH5Row.new) (by decide) rfl rfl d hd1 _ hd4, rfl, rfl, ?_,
      yields_length _ _ _, hreads, ?_, ?_⟩
    · simp only [hd2, List.append_assoc]
    · simp only [List.getLast?_append, List.getLast?_singleton, hd3, Nat.zero_add]
      rfl
    · intro h
      exact absurd h (by decide)

/-- Witness for C10 (amended): three records converted to the relational format. -/
theorem convert_loop_witness :
    (FileFormats.kSqlite = .kSqlite ∨
      (FileFormats.kSqlite = .kH5Row ∧
        [exampleEntry 0 0 0, exampleEntry 0 1 0, exampleEntry 0 0 0].length ≤ 8556118)) ∧
    [exampleEntry 0 0 0, exampleEntry 0 1 0, exampleEntry 0 0 0].length < 4 ∧
    ∃ r, main exampleOps (fun _ => zeroDataSet) 4 false
        ⟨true, .kRoot, [exampleEntry 0 0 0, exampleEntry 0 1 0, exampleEntry 0 0 0], none⟩
        (some .kSqlite) eventB = some r ∧ r.aborted = false :=
  ⟨by decide, by decide,
    (convert_loop exampleOps (fun _ => zeroDataSet)
      [exampleEntry 0 0 0, exampleEntry 0 1 0, exampleEntry 0 0 0] none .kSqlite eventB 4
      (by decide) (by decide)).imp (fun _ h => ⟨h.1, h.2.1⟩)⟩

/-- C11 (as stated): counterexample.  The cell `H1_isMuon` of `wideFlagRow` holds the
non-zero INTEGER 4294967296, which `sqlite3_column_int` returns as 0, and the
other two flags are 0: after `NextEvent` the three flags of the event are 0 and
`ProcessEvent` does not veto it, although an isMuon column of the row is
non-zero. -/
theorem sqlite_veto_wide_flag_counterexample :
    wideFlagRow.cell .H1_isMuon = .integer 4294967296 ∧
    ((EventReaderSqlite.Open .new (some [wideFlagRow])).state.NextEvent eventB).ret = true ∧
    ProcessEvent ((EventReaderSqlite.Open .new (some [wideFlagRow])).state.NextEvent
      eventB).event = false := by
  decide

/-- C11 (amended): when the statement steps to a stored row, `NextEvent` stops
decoding at the first isMuon column that reads non-zero through
`sqlite3_column_int` (the value of the cell as a C int), so the flags of the
later candidates keep the values the event had before the call; all the same,
whatever the event held before, `ProcessEvent` vetoes the event left by
`NextEvent` if and only if at least one of the three isMuon columns of the row
reads non-zero through `sqlite3_column_int`. -/
theorem sqlite_veto_after_lazy_decoding (r : EventReaderSqlite) (stmt : SelectStmt) (row : Row)
    (rest : List Row) (prior : Event)
    (hs : r.sql_select_ = some stmt) (hr : stmt.rest = row :: rest) :
    (ProcessEvent (r.NextEvent prior).event = true ↔
      ((row.cell .H1_isMuon).toInt ≠ 0 ∨ (row.cell .H2_isMuon).toInt ≠ 0 ∨
        (row.cell .H3_isMuon).toInt ≠ 0)) ∧
    ((row.cell .H1_isMuon).toInt ≠ 0 →
      ((r.NextEvent prior).event.kaon_candidates 1).h_is_muon =
        (prior.kaon_candidates 1).h_is_muon ∧
      ((r.NextEvent prior).event.kaon_candidates 2).h_is_muon =
        (prior.kaon_candidates 2).h_is_muon) ∧
    ((row.cell .H1_isMuon).toInt = 0 → (row.cell .H2_isMuon).toInt ≠ 0 →
      ((r.NextEvent prior).event.kaon_candidates 2).h_is_muon =
        (prior.kaon_candidates 2).h_is_muon) := by
  have c6 : (selectRow row).getD 6 .null = row.cell .H1_isMuon := rfl
  have c13 : (selectRow row).getD 13 .null = row.cell .H2_isMuon := rfl
  have c20 : (selectRow row).getD 20 .null = row.cell .H3_isMuon := rfl
  rw [NextEvent_event r stmt row rest hs hr prior]
  simp only [c6, c13, c20, ProcessEvent]
  simp only [fun k => (fields_as_get k).2.2.2.2.2.2.2]
  by_cases h1 : (row.cell .H1_isMuon).toInt = 0
  · by_cases h2 : (row.cell .H2_isMuon).toInt = 0
    · by_cases h3 : (row.cell .H3_isMuon).toInt = 0
      · simp only [h1, h2, h3, ne_eq, not_true_eq_false, not_false_eq_true, if_true, if_false]
        simp
      · simp only [h1, h2, h3, ne_eq, not_true_eq_false, not_false_eq_true, if_true, if_false]
        simp [h3]
    · simp only [h1, h2, ne_eq, not_true_eq_false, not_false_eq_true, if_true, if_false]
      simp [h2]
  · simp only [h1, ne_eq, not_false_eq_true, if_true]
    simp [h1]

/-- Witness for C11 (amended): a reader opened on a store whose only row has `H2_isMuon` set,
called on `eventB`, whose three flags are set beforehand. -/
theorem sqlite_veto_after_lazy_decoding_witness :
    ProcessEvent ((EventReaderSqlite.Open .new (some [muonRow])).state.NextEvent eventB).event =
      true ∧
    (((EventReaderSqlite.Open .new (some [muonRow])).state.NextEvent eventB).event.kaon_candidates
      2).h_is_muon = (eventB.kaon_candidates 2).h_is_muon :=
  ⟨(sqlite_veto_after_lazy_decoding (EventReaderSqlite.Open .new (some [muonRow])).state
      { result := [muonRow], rest := [muonRow], current := none } muonRow [] eventB rfl rfl).1.2
      (by decide),
    (sqlite_veto_after_lazy_decoding (EventReaderSqlite.Open .new (some [muonRow])).state
      { result := [muonRow], rest := [muonRow], current := none } muonRow [] eventB rfl rfl).2.2
      (by decide) (by decide)⟩


end LhcbOpendata
